import Mathlib

/-!
Verification of the trade-observatory ETL and KPI pipeline.

The development shallowly embeds the Python modules of the repository:

* `Etl`            — `observatorio/etl.py` (national parser and QA report),
* `EtlProducts`    — `observatorio/etl_products.py` (category parser and
                     `qa_totals` reconciliation),
* `Metrics`        — `observatorio/metrics.py` (`generate_metrics`),
* `MetricsProducts`— `observatorio/metrics_products.py`
                     (`generate_product_metrics`).

Floating point values are modelled by `PF`, a four-constructor type with the
IEEE-754 special values `nan` (which pandas uses for null), `+inf` and `-inf`,
and exact rationals for ordinary numbers.  Spreadsheet cells are modelled by
`Cell` (missing / numeric / text), matching what `pandas.ExcelFile.parse`
with `header=None` yields: an object-dtype grid of `NaN`, floats and strings.
-/

/-- Pandas float: either null (`NaN`), an infinity, or an exact value.
Rationals stand in for IEEE doubles; the spreadsheets' dollar amounts and the
derived percentages are far inside the range where doubles behave exactly
like rationals for the comparisons made by the code. -/
inductive PF where
  | nan : PF
  | pinf : PF
  | ninf : PF
  | val : ℚ → PF
deriving DecidableEq, Repr

namespace PF

/-- IEEE subtraction with NaN propagation, as performed by pandas `-`. -/
def sub : PF → PF → PF
  | nan, _ => nan
  | _, nan => nan
  | pinf, pinf => nan
  | pinf, _ => pinf
  | ninf, ninf => nan
  | ninf, _ => ninf
  | val _, pinf => ninf
  | val _, ninf => pinf
  | val a, val b => val (a - b)

/-- IEEE multiplication with NaN propagation, as performed by pandas `*`. -/
def mul : PF → PF → PF
  | nan, _ => nan
  | _, nan => nan
  | pinf, pinf => pinf
  | pinf, ninf => ninf
  | ninf, pinf => ninf
  | ninf, ninf => pinf
  | pinf, val b => if b = 0 then nan else if 0 < b then pinf else ninf
  | ninf, val b => if b = 0 then nan else if 0 < b then ninf else pinf
  | val a, pinf => if a = 0 then nan else if 0 < a then pinf else ninf
  | val a, ninf => if a = 0 then nan else if 0 < a then ninf else pinf
  | val a, val b => val (a * b)

/-- IEEE division with NaN propagation, as performed by pandas `/`.
Division of a nonzero value by zero yields a signed infinity and `0/0`
yields NaN, exactly as numpy does for float series. -/
def div : PF → PF → PF
  | nan, _ => nan
  | _, nan => nan
  | pinf, pinf => nan
  | pinf, ninf => nan
  | ninf, pinf => nan
  | ninf, ninf => nan
  | pinf, val b => if b < 0 then ninf else pinf
  | ninf, val b => if b < 0 then pinf else ninf
  | val _, pinf => val 0
  | val _, ninf => val 0
  | val a, val b =>
      if b = 0 then (if a = 0 then nan else if 0 < a then pinf else ninf)
      else val (a / b)

/-- Round a rational to the nearest integer, ties to even — the rounding
mode used by `numpy.round` and hence by pandas `.round`. -/
def roundHalfEven (q : ℚ) : ℤ :=
  let f : ℤ := ⌊q⌋
  let r : ℚ := q - f
  if r < 1 / 2 then f
  else if 1 / 2 < r then f + 1
  else if f % 2 = 0 then f else f + 1

/-- Pandas `.round(n)`: round to `n` decimal places (NaN and infinities are
returned unchanged, as numpy does). -/
def roundTo (n : ℕ) : PF → PF
  | val q => val (roundHalfEven (q * 10 ^ n) / (10 ^ n : ℚ))
  | x => x

/-- Pandas `Series.abs() > c` on one element: `False` on NaN. -/
def absGt (c : ℚ) : PF → Bool
  | val q => decide (c < |q|)
  | pinf => true
  | ninf => true
  | nan => false

/-- Total Boolean comparison used to model pandas sorting of a float
column: NaN compares below everything (pandas `nlargest` drops NaNs; the
inputs we sort never contain NaN, see `qa_totals`). -/
def leB : PF → PF → Bool
  | nan, _ => true
  | _, nan => false
  | ninf, _ => true
  | _, ninf => false
  | val _, pinf => true
  | pinf, pinf => true
  | pinf, val _ => false
  | val a, val b => decide (a ≤ b)

end PF

/-- A spreadsheet cell as seen through `pandas` with `header=None`:
missing (`NaN`), a float, or a string. -/
inductive Cell where
  | blank : Cell
  | num : ℚ → Cell
  | str : String → Cell
deriving DecidableEq, Repr

/-- A row of the parsed sheet. -/
abbrev Row := List Cell

/-- One sheet of a workbook: its tab name and its cell grid. -/
structure Sheet where
  name : String
  rows : List Row
deriving DecidableEq, Repr

/-- A workbook: the list of its sheets, in tab order. -/
abbrev Book := List Sheet

/-- The twelve Spanish month labels, in calendar order (the `MONTHS`
constant shared by both ETL scripts). -/
def MONTHS : List String :=
  ["Enero", "Febrero", "Marzo", "Abril", "Mayo", "Junio",
   "Julio", "Agosto", "Septiembre", "Octubre", "Noviembre", "Diciembre"]

/-- Python `str()` of an integer-valued float appends `.0`; for other
rationals we keep the exact fraction text.  The precise digits of numeric
cells are irrelevant here: numeric cells can never render to a month label,
to `"Total"`, nor to a filtered name prefix, which is all the parsers ever
test a rendered cell against. -/
def ratPyStr (q : ℚ) : String :=
  if q.den = 1 then toString q.num ++ ".0" else toString q

/-- Python `str(cell)`: a missing value prints as `nan`. -/
def pyStrCell : Cell → String
  | Cell.blank => "nan"
  | Cell.num q => ratPyStr q
  | Cell.str s => s

/-- Pandas `isna` on one cell. -/
def pdIsNa : Cell → Bool
  | Cell.blank => true
  | _ => false

/-- Python `cell == ''`: true only for the empty string (a float never
equals `''`). -/
def cellEqEmptyStr : Cell → Bool
  | Cell.str s => s = ""
  | _ => false

/-- Python `cell == 0`: true only for the numeric value zero.  A text cell
containing `"0"` does not equal the integer `0` in Python. -/
def cellEqZero : Cell → Bool
  | Cell.num q => q = 0
  | _ => false

/-- Python `str.strip()` on the character list: drop leading and trailing
whitespace.  (Implemented structurally so concrete runs reduce in the
kernel; `String.trim` agrees on every input but does not reduce.) -/
def stripChars (l : List Char) : List Char :=
  ((l.dropWhile Char.isWhitespace).reverse.dropWhile Char.isWhitespace).reverse

/-- Python `str.strip()`. -/
def pyStrip (s : String) : String :=
  ⟨stripChars s.data⟩

/-- Python `str.lower()` (ASCII case folding suffices for the labels and
name prefixes the parsers compare). -/
def pyLower (s : String) : String :=
  ⟨s.data.map Char.toLower⟩

/-- Boolean list-prefix test. -/
def listHasPre : List Char → List Char → Bool
  | [], _ => true
  | _ :: _, [] => false
  | a :: as, b :: bs => a == b && listHasPre as bs

/-- Python `str.startswith`. -/
def pyStartsWith (s pre : String) : Bool :=
  listHasPre pre.data s.data

/-- Search for a pattern in every suffix of a character list. -/
def subListSearch (pat : List Char) : List Char → Bool
  | [] => listHasPre pat []
  | c :: t => listHasPre pat (c :: t) || subListSearch pat t

/-- Python `pat in s` (substring containment). -/
def pyHasSubstr (s pat : String) : Bool :=
  subListSearch pat.data s.data

/-- Value of a digit run, most significant first. -/
def digitsToNat (l : List Char) : ℕ :=
  l.foldl (fun acc c => acc * 10 + (c.toNat - 48)) 0

/-- Split a character list at the dots, Python `s.split(".")`. -/
def splitDots (l : List Char) : List (List Char) :=
  match l with
  | [] => [[]]
  | c :: rest =>
      let r := splitDots rest
      if c = '.' then [] :: r
      else
        match r with
        | [] => [[c]]
        | h :: t => (c :: h) :: t

/-- Python `float(s)` on a string, restricted to plain decimal literals
with an optional sign and an optional decimal point (`"12"`, `"-3.5"`,
`"7."`, `".25"`).  Exponents, underscores and the special literals
`inf`/`nan` are not modelled; the workbooks' text cells that matter here
are plain decimals or non-numeric labels. -/
def pyFloatUnsigned (body : List Char) : Option ℚ :=
  match splitDots body with
  | [a] =>
      if a ≠ [] ∧ a.all Char.isDigit then
        some ((digitsToNat a : ℕ) : ℚ)
      else none
  | [a, b] =>
      if (a ≠ [] ∨ b ≠ []) ∧ a.all Char.isDigit ∧ b.all Char.isDigit then
        some (((digitsToNat a * 10 ^ b.length + digitsToNat b : ℕ) : ℚ) /
          ((10 ^ b.length : ℕ) : ℚ))
      else none
  | _ => none

/-- Python `float(s)` on a string: see `pyFloatUnsigned` for the digits,
with an optional leading sign after stripping. -/
def pyFloatStr (s : String) : Option ℚ :=
  match stripChars s.data with
  | '-' :: rest => (pyFloatUnsigned rest).map (fun q => -q)
  | '+' :: rest => pyFloatUnsigned rest
  | t => pyFloatUnsigned t

/-- Python `float(cell)` restricted to the success case: floats convert to
themselves and numeric strings are parsed; a non-numeric string raises
`ValueError`, modelled as `none`.  (A blank cell converts to the float
`nan`; the category parser never reaches `float` on a blank because
`pd.isna` is tested first, so `none` is a safe stand-in there.) -/
def pyFloatCell : Cell → Option ℚ
  | Cell.blank => none
  | Cell.num q => some q
  | Cell.str s => pyFloatStr s

/-- Cell lookup `df.iat[r, c]`, with pandas' rectangular padding: anything
outside the grid reads as a missing value. -/
def cellAt (rows : List Row) (r c : ℕ) : Cell :=
  (rows.getD r []).getD c Cell.blank

/-- Column count `df.shape[1]` of the (rectangular) grid. -/
def ncols (rows : List Row) : ℕ :=
  (rows.map List.length).foldr Nat.max 0

/-- Sheet names are processed only when they match `\d{4}`. -/
def isYearName (s : String) : Bool :=
  s.data.length == 4 && s.data.all Char.isDigit

/-- Python `int(sheet)` for a four-digit sheet name. -/
def yearOfName (s : String) : ℤ :=
  digitsToNat s.data

/-- Index of the header row: the first row containing a cell whose
`str(...).strip()` equals `"Enero"` (shared by both parsers). -/
def findHeaderIdx (rows : List Row) : Option ℕ :=
  rows.findIdx? (fun row => row.any (fun c => pyStrip (pyStrCell c) == "Enero"))

/-- One long-form fact record of the category ETL (`etl_products.py`):
year, month label (or `"Total"`), flow, category name and USD value. -/
structure ProdRec where
  year : ℤ
  month : String
  flow : String
  category : String
  usd : ℚ
deriving DecidableEq, Repr

namespace EtlProducts

/-- The column-to-label map built from the header row: every column whose
rendered, stripped header cell is a month name or `"Total"`, in column
order (Python dict insertion order). -/
def col_map (rows : List Row) (headIdx : ℕ) : List (ℕ × String) :=
  (List.range (ncols rows)).filterMap (fun c =>
    let v := pyStrip (pyStrCell (cellAt rows headIdx c))
    if v ∈ MONTHS ++ ["Total"] then some (c, v) else none)

/-- The category name of a data row: column 2 when the sheet has more than
two columns, else column 0; rendered with `str` and stripped. -/
def catName (rows : List Row) (r : ℕ) : String :=
  let cell := if 2 < ncols rows then cellAt rows r 2 else cellAt rows r 0
  pyStrip (pyStrCell cell)

/-- The row filter of `parse_book`: a row is data when its name is
non-empty, not a null-like token, does not start with `incluye`/`total`
(case-insensitively via `.lower()`), and has at least three characters. -/
def isDataRow (rows : List Row) (r : ℕ) : Bool :=
  let cat := catName rows r
  !(cat == "" || ["nan", "none", ""].contains (pyLower cat) ||
    pyStartsWith (pyLower cat) "incluye" || pyStartsWith (pyLower cat) "total" ||
    decide (cat.data.length < 3))

/-- The cell filter of the month loop: skip missing cells, the empty
string and the numeric value `0`, then convert with `float` (a
non-numeric string raises `ValueError`, caught and skipped). -/
def monthCellValue? (val : Cell) : Option ℚ :=
  if pdIsNa val || cellEqEmptyStr val || cellEqZero val then none
  else pyFloatCell val

/-- The records one qualifying data row contributes: one per mapped month
(or Total) column whose cell passes the cell filter. -/
def rowRecords (year : ℤ) (flow : String) (rows : List Row)
    (cmap : List (ℕ × String)) (r : ℕ) : List ProdRec :=
  cmap.filterMap (fun p =>
    (monthCellValue? (cellAt rows r p.1)).map (fun q =>
      { year := year, month := p.2, flow := flow, category := catName rows r, usd := q }))

/-- Parse one year sheet: locate the header row, build the column map,
then scan every row from `head_idx + 3` on with the row filter.  A sheet
with no locatable header or no mapped columns yields no records and one
warning, mirroring the `continue` branches with their printed warnings. -/
def parse_sheet (flow : String) (year : ℤ) (rows : List Row) :
    List ProdRec × List String :=
  match findHeaderIdx rows with
  | none => ([], ["no se encontro encabezado Enero en " ++ toString year])
  | some h =>
    let cmap := col_map rows h
    if cmap.isEmpty then
      ([], ["no se encontraron columnas de meses en " ++ toString year])
    else
      ((((List.range' (h + 3) (rows.length - (h + 3))).filter
          (fun r => isDataRow rows r)).map (rowRecords year flow rows cmap)).flatten, [])

/-- The function `etl_products.parse_book`: process every sheet whose name is a
four-digit year, concatenating records and warnings in sheet order.
The function is total: a sheet that cannot be parsed only adds a warning. -/
def parse_book (book : Book) (flow : String) : List ProdRec × List String :=
  match book with
  | [] => ([], [])
  | sh :: rest =>
    if isYearName sh.name then
      let s := parse_sheet flow (yearOfName sh.name) sh.rows
      let b := parse_book rest flow
      (s.1 ++ b.1, s.2 ++ b.2)
    else parse_book rest flow

end EtlProducts

/-- A small single-sheet workbook used to evaluate the parsers below. -/
def sampleBook : Book :=
  [⟨"2005",
    [[Cell.str "titulo"],
     [Cell.blank, Cell.blank, Cell.blank, Cell.str "Enero", Cell.str "Febrero", Cell.str "Total"],
     [],
     [],
     [Cell.blank, Cell.blank, Cell.str "Cobre", Cell.num 5, Cell.num 7, Cell.num 12],
     [Cell.blank, Cell.blank, Cell.str "Total general", Cell.num 5, Cell.num 7, Cell.num 12]]⟩]


/-- Python exception kinds the national parser can raise. -/
inductive PyErr where
  | stopIteration
  | indexError
  | valueError
  | typeError
  | attributeError
deriving DecidableEq, Repr

/-- One long-form record of the national ETL (`etl.py`).  The `sum_months`
side channel is present only on the synthetic `"Total"` record; a missing
field of a pandas record is NaN, modelled with `Option`. -/
structure NatRec where
  year : ℤ
  month : String
  flow : String
  usd : PF
  sum_months : Option ℚ
deriving DecidableEq, Repr

namespace Etl

/-- The `col_meses` selection: the columns whose stripped rendered header cell is one of
the twelve month names. -/
def col_meses (rows : List Row) (hdrIdx : ℕ) : List ℕ :=
  (List.range (ncols rows)).filter (fun c =>
    MONTHS.contains (pyStrip (pyStrCell (cellAt rows hdrIdx c))))

/-- The `col_total` lookup: the first column whose raw header cell is exactly the
string `"Total"` (`header[header=="Total"].index[0]`, no stripping);
`none` models the `IndexError` of an empty selection. -/
def col_total? (rows : List Row) (hdrIdx : ℕ) : Option ℕ :=
  (List.range (ncols rows)).find? (fun c => cellAt rows hdrIdx c == Cell.str "Total")

/-- The `tot_idx` lookup: the first row having a string cell that contains
`"Total general"`. -/
def totIdx? (rows : List Row) : Option ℕ :=
  rows.findIdx? (fun row => row.any (fun c =>
    match c with
    | Cell.str s => pyHasSubstr s "Total general"
    | _ => false))

/-- Python `header[col].strip()`: the header cell must be a string (any
other object would raise `AttributeError`; the month columns always hold
strings since only a string can render to a month name). -/
def stripHeaderCell : Cell → Except PyErr String
  | Cell.str s => .ok (pyStrip s)
  | _ => .error .attributeError

/-- Python `float(cell)`: a missing cell is the float NaN, floats convert
to themselves, numeric strings parse, any other string raises
`ValueError`. -/
def floatCell : Cell → Except PyErr PF
  | Cell.blank => .ok PF.nan
  | Cell.num q => .ok (PF.val q)
  | Cell.str s =>
      match pyFloatStr s with
      | some q => .ok (PF.val q)
      | none => .error .valueError

/-- Pandas `Series.sum()` over the selected month cells of the grand-total
row: missing values are skipped, numbers added; a text cell makes the
object-dtype summation raise `TypeError`. -/
def sumCells : List Cell → Except PyErr ℚ
  | [] => .ok 0
  | Cell.blank :: cs => sumCells cs
  | Cell.num q :: cs => (sumCells cs).map (fun x => q + x)
  | Cell.str _ :: _ => .error .typeError

/-- The per-month loop of `etl.py`: one record per month column, reading
the grand-total row; conversion failures abort the whole parse (there is
no `try` in `etl.py`). -/
def monthRecords (flow : String) (year : ℤ) (rows : List Row)
    (hdrIdx totIdx : ℕ) : List ℕ → Except PyErr (List NatRec)
  | [] => .ok []
  | c :: cs =>
    match stripHeaderCell (cellAt rows hdrIdx c) with
    | .error e => .error e
    | .ok m =>
      match floatCell (cellAt rows totIdx c) with
      | .error e => .error e
      | .ok v =>
        match monthRecords flow year rows hdrIdx totIdx cs with
        | .error e => .error e
        | .ok rs =>
            .ok ({ year := year, month := m, flow := flow, usd := v,
                   sum_months := none } :: rs)

/-- Parse one year sheet of the national workbook.  Unlike the category
parser, every lookup failure is a raised exception: a missing header row
or grand-total row raises `StopIteration` (bare `next(...)`), a missing
`Total` column raises `IndexError`. -/
def parse_sheet (flow : String) (year : ℤ) (rows : List Row) :
    Except PyErr (List NatRec) :=
  match findHeaderIdx rows with
  | none => .error .stopIteration
  | some hdrIdx =>
    let meses := col_meses rows hdrIdx
    match col_total? rows hdrIdx with
    | none => .error .indexError
    | some ctot =>
      match totIdx? rows with
      | none => .error .stopIteration
      | some tIdx =>
        match monthRecords flow year rows hdrIdx tIdx meses with
        | .error e => .error e
        | .ok ms =>
          match floatCell (cellAt rows tIdx ctot) with
          | .error e => .error e
          | .ok vt =>
            match sumCells (meses.map (fun c => cellAt rows tIdx c)) with
            | .error e => .error e
            | .ok sm =>
                .ok (ms ++ [{ year := year, month := "Total", flow := flow,
                              usd := vt, sum_months := some sm }])

/-- The function `etl.parse_book`: parse every four-digit-named sheet; the first
exception aborts the whole book (the caller has no handler around the
sheet loop). -/
def parse_book (book : Book) (flow : String) : Except PyErr (List NatRec) :=
  match book with
  | [] => .ok []
  | sh :: rest =>
    if isYearName sh.name then
      match parse_sheet flow (yearOfName sh.name) sh.rows with
      | .error e => .error e
      | .ok recs =>
        match parse_book rest flow with
        | .error e => .error e
        | .ok rs => .ok (recs ++ rs)
    else parse_book rest flow

end Etl


/-- Lexicographic order on key triples, used to model how pandas sorts
group keys and frames (tuple comparison over linearly ordered columns). -/
def TLe {α β γ : Type} [LinearOrder α] [LinearOrder β] [LinearOrder γ]
    (x y : α × β × γ) : Prop :=
  x.1 < y.1 ∨ (x.1 = y.1 ∧ (x.2.1 < y.2.1 ∨ (x.2.1 = y.2.1 ∧ x.2.2 ≤ y.2.2)))

instance {α β γ : Type} [LinearOrder α] [LinearOrder β] [LinearOrder γ]
    (x y : α × β × γ) : Decidable (TLe x y) := by
  unfold TLe
  infer_instance

/-- A reconciliation finding of `qa_totals`: one row of the joined frame,
with `usd_total` absent (NaN) when the group has no `"Total"` record and
the delta column `Δ = usd_total - sum_months` (NaN when `usd_total` is). -/
structure Finding where
  year : ℤ
  flow : String
  category : String
  sum_months : ℚ
  usd_total : Option ℚ
  delta : PF
deriving DecidableEq, Repr

namespace EtlProducts

/-- Reconciliation group key: (year, flow, category). -/
abbrev QAKey := ℤ × String × String

/-- Group key of a record. -/
def keyOf (r : ProdRec) : QAKey := (r.year, r.flow, r.category)

/-- The `df_monthly` frame: per-group sum of the `usd` of the non-`"Total"`
records; pandas `groupby` returns the distinct keys sorted ascending. -/
def qaMonthly (facts : List ProdRec) : List (QAKey × ℚ) :=
  let ms := facts.filter (fun r => r.month != "Total")
  (List.insertionSort TLe (ms.map keyOf).dedup).map (fun k =>
    (k, ((ms.filter (fun r => keyOf r == k)).map (fun r => r.usd)).sum))

/-- The `df_total` frame: per-group sum of the `usd` of the `"Total"` records. -/
def qaAnnual (facts : List ProdRec) : List (QAKey × ℚ) :=
  let ts := facts.filter (fun r => r.month == "Total")
  (List.insertionSort TLe (ts.map keyOf).dedup).map (fun k =>
    (k, ((ts.filter (fun r => keyOf r == k)).map (fun r => r.usd)).sum))

/-- The left merge of `df_monthly` with `df_total` plus the delta column:
row order follows the left (monthly) frame, a group with no annual total
gets a NaN `usd_total` and hence a NaN delta. -/
def qaJoined (facts : List ProdRec) : List Finding :=
  (qaMonthly facts).map (fun p =>
    let t := ((qaAnnual facts).find? (fun q => q.1 == p.1)).map (fun q => q.2)
    { year := p.1.1, flow := p.1.2.1, category := p.1.2.2,
      sum_months := p.2, usd_total := t,
      delta := match t with
               | some tv => PF.val (tv - p.2)
               | none => PF.nan })

/-- The `bad` frame: the rows whose absolute delta exceeds the hard-coded `1e-3`
threshold (note: one tenth of a cent, not the `$1K` the adjacent warning
message claims). -/
def qaBad (facts : List ProdRec) : List Finding :=
  (qaJoined facts).filter (fun f => f.delta.absGt (1 / 1000))

/-- The table `worst = bad.nlargest(5, "Δ")`: the five rows with the largest signed
delta, in descending delta order — the rows shown in the operator table. -/
def qaWorst (facts : List ProdRec) : List Finding :=
  (List.insertionSort (fun f g : Finding => PF.leB g.delta f.delta = true)
    (qaBad facts)).take 5

end EtlProducts

/-- The `month_num` mapping: 1-based position of a label in the fixed month order
(`.map({m: i+1 ...})`); `none` is the NaN an unknown label maps to. -/
def monthNum? (m : String) : Option ℕ :=
  (MONTHS.findIdx? (fun x => x == m)).map (fun i => i + 1)

/-- Pandas `shift(k)` read at position `i` of a series: the value `k`
positions earlier, NaN for the first `k` positions. -/
def lagged (vs : List PF) (k i : ℕ) : PF :=
  if i < k then PF.nan else vs.getD (i - k) PF.nan

/-- The growth formula `((cur / lag) - 1) * 100` rounded to two decimals,
shared by every MoM/YoY column of both metric generators. -/
def pctChange (cur lag : PF) : PF :=
  (((cur.div lag).sub (PF.val 1)).mul (PF.val 100)).roundTo 2

/-- Pandas `rolling(3, min_periods=1).mean().round(0)` read at position `i`:
the mean of the non-NaN values among the current and up to two preceding
entries, NaN when all three are missing.  (The rolled columns are sums
and differences of facts, so they only ever hold NaN or finite values.) -/
def ma3At (vs : List PF) (i : ℕ) : PF :=
  let xs := ((vs.take (i + 1)).drop (i + 1 - 3)).filterMap
    (fun v => match v with | PF.val q => some q | _ => none)
  if xs.isEmpty then PF.nan
  else (PF.val (xs.sum / xs.length)).roundTo 0

/-- Pandas `.replace([inf, -inf], None)` on one entry: infinities become null.
(This models the replacement value the code asks for; the pandas
`value=None` pad-method quirk of some versions is not modelled.) -/
def replaceInfNan : PF → PF
  | PF.pinf => PF.nan
  | PF.ninf => PF.nan
  | x => x

/-- A row of the `trade` table as consumed by `generate_metrics`. -/
structure TradeFact where
  year : ℤ
  month : String
  flow : String
  usd : PF
deriving DecidableEq, Repr

/-- A row of the pivoted national frame: one per (year, month). -/
structure NatWide where
  year : ℤ
  month : String
  exp : PF
  imp : PF
deriving DecidableEq, Repr

/-- A row of `kpi_monthly` (`exp`/`imp` stand for the `export`/`import`
columns, which are reserved words here). -/
structure NatKpi where
  year : ℤ
  month : String
  month_num : Option ℕ
  exp : PF
  imp : PF
  balance : PF
  exp_mom : PF
  exp_yoy : PF
  imp_mom : PF
  imp_yoy : PF
  exp_ma3 : PF
  imp_ma3 : PF
  balance_ma3 : PF
  idx2005_exp : PF
  idx2005_imp : PF
deriving DecidableEq, Repr

namespace Metrics

/-- Sort key of the SQL extract: `ORDER BY year, month, flow` with the
month as a plain string. -/
def factKey (f : TradeFact) : ℤ × String × String := (f.year, f.month, f.flow)

/-- The extracted base data: `month != 'Total'`, ordered. -/
def sortedFacts (facts : List TradeFact) : List TradeFact :=
  List.insertionSort (fun a b => TLe (factKey a) (factKey b))
    (facts.filter (fun f => f.month != "Total"))

/-- Aggregation `first` for one pivot cell: the first non-NaN `usd` of the
matching records, NaN when there is none.  A flow with no records at all
leaves the column entirely NaN as well, because `generate_metrics` fills
a missing flow column with `None`. -/
def firstAgg (facts : List TradeFact) (y : ℤ) (m flow : String) : PF :=
  match (facts.filter (fun f => f.year == y && f.month == m && f.flow == flow)).filterMap
      (fun f => match f.usd with | PF.val q => some q | _ => none) with
  | [] => PF.nan
  | q :: _ => PF.val q

/-- The pivot `index=['year','month'], columns='flow', values='usd'`:
one row per distinct (year, month), keys ascending (`pivot_table` sorts
its index; deduplicating the already-sorted extract gives that order). -/
def pivot (facts : List TradeFact) : List NatWide :=
  let fs := sortedFacts facts
  ((fs.map (fun f => (f.year, f.month))).dedup).map (fun k =>
    { year := k.1, month := k.2, exp := firstAgg fs k.1 k.2 "export",
      imp := firstAgg fs k.1 k.2 "import" })

/-- Key of `sort_values(['year','month_num'])`: unknown labels (NaN
month_num) sort last, with the raw label as deterministic tie-break. -/
def chronoKey (w : NatWide) : ℤ × ℕ × String :=
  (w.year, (monthNum? w.month).getD 13, w.month)

/-- The chronologically ordered wide frame. -/
def sortedWide (facts : List TradeFact) : List NatWide :=
  List.insertionSort (fun a b => TLe (chronoKey a) (chronoKey b)) (pivot facts)

/-- Row `i` of the KPI frame, reading every derived column at its
position: lag-based growth, rolling means, and the index against the
Enero 2005 base values. -/
def mkKpi (ws : List NatWide) (bE bI : PF) (i : ℕ) : NatKpi :=
  let es := ws.map (fun w => w.exp)
  let is := ws.map (fun w => w.imp)
  let bs := List.zipWith PF.sub es is
  let w := ws.getD i ⟨0, "", PF.nan, PF.nan⟩
  { year := w.year, month := w.month, month_num := monthNum? w.month,
    exp := es.getD i PF.nan, imp := is.getD i PF.nan, balance := bs.getD i PF.nan,
    exp_mom := pctChange (es.getD i PF.nan) (lagged es 1 i),
    exp_yoy := pctChange (es.getD i PF.nan) (lagged es 12 i),
    imp_mom := pctChange (is.getD i PF.nan) (lagged is 1 i),
    imp_yoy := pctChange (is.getD i PF.nan) (lagged is 12 i),
    exp_ma3 := ma3At es i, imp_ma3 := ma3At is i, balance_ma3 := ma3At bs i,
    idx2005_exp := (((es.getD i PF.nan).div bE).mul (PF.val 100)).roundTo 2,
    idx2005_imp := (((is.getD i PF.nan).div bI).mul (PF.val 100)).roundTo 2 }

/-- The function `metrics.generate_metrics` on the national fact table.  The base
lookup `wide.query("year == 2005 & month == 'Enero'")['export'].iloc[0]`
raises `IndexError` when no such row exists; there is no fallback. -/
def generate_metrics (facts : List TradeFact) : Except PyErr (List NatKpi) :=
  let ws := sortedWide facts
  match ws.find? (fun w => w.year == 2005 && w.month == "Enero") with
  | none => .error .indexError
  | some b => .ok ((List.range ws.length).map (mkKpi ws b.exp b.imp))

end Metrics

/-- A row of the pivoted category frame: one per (year, month, category),
with a defined `month_num` (a NaN in a pivot index level drops the row). -/
structure ProdWide where
  year : ℤ
  month : String
  month_num : ℕ
  category : String
  exp : PF
  imp : PF
deriving DecidableEq, Repr

/-- A row of `kpi_prod_monthly`. -/
structure ProdKpi where
  year : ℤ
  month : String
  month_num : ℕ
  category : String
  exp : PF
  imp : PF
  balance : PF
  cov_ratio : PF
  exp_mom : PF
  exp_yoy : PF
  imp_mom : PF
  imp_yoy : PF
  exp_ma3 : PF
  imp_ma3 : PF
  balance_ma3 : PF
  idx_exp : PF
  idx_imp : PF
deriving DecidableEq, Repr

namespace MetricsProducts

/-- Aggregation `sum` for one pivot cell: the sum of the `usd` of the
matching records, NaN when the (key, flow) combination has none. -/
def sumAgg (facts : List ProdRec) (y : ℤ) (m c flow : String) : PF :=
  let xs := facts.filter (fun f =>
    f.year == y && f.month == m && f.category == c && f.flow == flow)
  if xs.isEmpty then PF.nan else PF.val ((xs.map (fun f => f.usd)).sum)

/-- The pivot of `generate_product_metrics` including its column fix-up:
one row per distinct (year, month, category) among the non-`Total`
records with a known month; a per-row missing flow is NaN, but a flow
with no records anywhere yields a column constantly `0` (the
`wide['export'] = 0` branch). -/
def pivot (facts : List ProdRec) : List ProdWide :=
  let fs := facts.filter (fun f => f.month != "Total" && (monthNum? f.month).isSome)
  let hasExp := fs.any (fun f => f.flow == "export")
  let hasImp := fs.any (fun f => f.flow == "import")
  ((fs.map (fun f => (f.year, f.month, f.category))).dedup).map (fun k =>
    { year := k.1, month := k.2.1, month_num := (monthNum? k.2.1).getD 0,
      category := k.2.2,
      exp := if hasExp then sumAgg fs k.1 k.2.1 k.2.2 "export" else PF.val 0,
      imp := if hasImp then sumAgg fs k.1 k.2.1 k.2.2 "import" else PF.val 0 })

/-- Key of `sort_values(["category", "year", "month_num"])`. -/
def sortKey (w : ProdWide) : String × ℤ × ℕ := (w.category, w.year, w.month_num)

/-- The sorted wide frame: by category, then chronologically inside each
category. -/
def sortedWide (facts : List ProdRec) : List ProdWide :=
  List.insertionSort (fun a b => TLe (sortKey a) (sortKey b)) (pivot facts)

/-- The distinct categories in ascending order — both the `groupby` key
order and the block order of the sorted frame. -/
def cats (facts : List ProdRec) : List String :=
  ((sortedWide facts).map (fun w => w.category)).dedup

/-- The column `cov_ratio = (exp / imp).replace([inf, -inf], None).round(4)`. -/
def cov_ratio (e m : PF) : PF :=
  (replaceInfNan (e.div m)).roundTo 4

/-- The base denominator of `calculate_base_index` for one series: the
first entry when it is a value strictly greater than zero, else the
neutral `1` (`group['exp'].iloc[0] if ... > 0 else 1`; a NaN first entry
fails the `> 0` test and also falls back to `1`). -/
def baseDen (vs : List PF) : ℚ :=
  match vs.head? with
  | some (PF.val q) => if 0 < q then q else 1
  | _ => 1

/-- The function `calculate_base_index` read at position `i` of one series:
`value / base * 100` rounded to two decimals. -/
def calculate_base_index (vs : List PF) (i : ℕ) : PF :=
  (((vs.getD i PF.nan).div (PF.val (baseDen vs))).mul (PF.val 100)).roundTo 2

/-- Row `i` of the KPI columns of one category block `ws` of the sorted
wide frame.  The lag, rolling and base-index columns are computed per
category (`groupby("category")`), which on the category-sorted frame is
exactly a computation over each contiguous block; the row-local columns
(balance, cov_ratio) do not depend on the grouping. -/
def mkSeriesKpi (ws : List ProdWide) (i : ℕ) : ProdKpi :=
  let es := ws.map (fun w => w.exp)
  let is := ws.map (fun w => w.imp)
  let bs := List.zipWith PF.sub es is
  let w := ws.getD i ⟨0, "", 0, "", PF.nan, PF.nan⟩
  { year := w.year, month := w.month, month_num := w.month_num,
    category := w.category,
    exp := es.getD i PF.nan, imp := is.getD i PF.nan, balance := bs.getD i PF.nan,
    cov_ratio := cov_ratio (es.getD i PF.nan) (is.getD i PF.nan),
    exp_mom := pctChange (es.getD i PF.nan) (lagged es 1 i),
    exp_yoy := pctChange (es.getD i PF.nan) (lagged es 12 i),
    imp_mom := pctChange (is.getD i PF.nan) (lagged is 1 i),
    imp_yoy := pctChange (is.getD i PF.nan) (lagged is 12 i),
    exp_ma3 := ma3At es i, imp_ma3 := ma3At is i, balance_ma3 := ma3At bs i,
    idx_exp := calculate_base_index es i,
    idx_imp := calculate_base_index is i }

/-- All KPI rows of one category block. -/
def seriesKpis (ws : List ProdWide) : List ProdKpi :=
  (List.range ws.length).map (mkSeriesKpi ws)

/-- The function `metrics_products.generate_product_metrics` on the category fact
table: pivot, sort, then the grouped derived columns, block by block in
ascending category order (the order `groupby(...).apply` concatenates,
which coincides with the sorted frame's own order). -/
def generate_product_metrics (facts : List ProdRec) : List ProdKpi :=
  let ws := sortedWide facts
  ((cats facts).map (fun c => seriesKpis (ws.filter (fun w => w.category == c)))).flatten

end MetricsProducts

/-- Facts with a $500 reconciliation delta: monthly sum 1000, annual 1500. -/
def c1Facts : List ProdRec :=
  [⟨2005, "Enero", "import", "Minerales", 1000⟩,
   ⟨2005, "Total", "import", "Minerales", 1500⟩]

/-- Category facts whose export series starts at zero. -/
def c2Facts : List ProdRec :=
  [⟨2005, "Enero", "export", "Cobre", 0⟩,
   ⟨2005, "Febrero", "export", "Cobre", 5⟩]

/-- A category fact table with no export records at all. -/
def c3Facts : List ProdRec :=
  [⟨2005, "Enero", "import", "Cobre", 7⟩]

/-- A national fact table with no Enero 2005 row. -/
def c4Facts : List TradeFact :=
  [⟨2006, "Enero", "export", PF.val 5⟩]

/-- A workbook whose single year sheet has no month header row. -/
def c5Book : Book :=
  [⟨"2007", [[Cell.str "sin encabezado"]]⟩]

/-- A category workbook whose header has a `Total` column but whose data
row leaves the total cell empty. -/
def c6Book : Book :=
  [⟨"2005",
    [[],
     [Cell.blank, Cell.blank, Cell.blank, Cell.str "Enero", Cell.str "Total"],
     [],
     [],
     [Cell.blank, Cell.blank, Cell.str "Cobre", Cell.num 5, Cell.blank]]⟩]

/-- A national workbook whose grand-total row has a zero month cell. -/
def c7Book : Book :=
  [⟨"2005",
    [[Cell.blank, Cell.blank, Cell.blank, Cell.str "Enero", Cell.str "Total"],
     [Cell.blank, Cell.blank, Cell.str "Total general", Cell.num 0, Cell.num 0]]⟩]

/-- Facts with two flagged deltas, +10 (in 2005) and -5000 (in 2006). -/
def c8Facts : List ProdRec :=
  [⟨2005, "Enero", "import", "Cobre", 100⟩,
   ⟨2005, "Total", "import", "Cobre", 110⟩,
   ⟨2006, "Enero", "import", "Cobre", 6000⟩,
   ⟨2006, "Total", "import", "Cobre", 1000⟩]

/-- A category workbook whose data row holds the text cell `"0"`. -/
def c10Book : Book :=
  [⟨"2005",
    [[],
     [Cell.blank, Cell.blank, Cell.blank, Cell.str "Enero"],
     [],
     [],
     [Cell.blank, Cell.blank, Cell.str "Cobre", Cell.str "0"]]⟩]

/-- The records `etl.parse_book` yields on `sampleBook`. -/
def sampleNatRecs : List NatRec :=
  [⟨2005, "Enero", "import", PF.val 5, none⟩,
   ⟨2005, "Febrero", "import", PF.val 7, none⟩,
   ⟨2005, "Total", "import", PF.val 12, some 12⟩]

/-- The sorted category pivot of `c2Facts`. -/
def c2Wide : List ProdWide :=
  [⟨2005, "Enero", 1, "Cobre", PF.val 0, PF.val 0⟩,
   ⟨2005, "Febrero", 2, "Cobre", PF.val 5, PF.val 0⟩]

/-- Default KPI rows used with `getD`. -/
def dProdKpi : ProdKpi := MetricsProducts.mkSeriesKpi [] 0

/-- Default national KPI row used with `getD`. -/
def dNatKpi : NatKpi := Metrics.mkKpi [] PF.nan PF.nan 0

/-- The KPI series of one category: the rows of the derived table whose
category is the given one. -/
def kpiSeries (facts : List ProdRec) (cat : String) : List ProdKpi :=
  (MetricsProducts.generate_product_metrics facts).filter
    (fun r => r.category == cat)

theorem tle_total {α β γ : Type} [LinearOrder α] [LinearOrder β] [LinearOrder γ]
    (x y : α × β × γ) : TLe x y ∨ TLe y x := by
  rcases lt_trichotomy x.1 y.1 with h1 | h1 | h1
  · exact Or.inl (Or.inl h1)
  · rcases lt_trichotomy x.2.1 y.2.1 with h2 | h2 | h2
    · exact Or.inl (Or.inr ⟨h1, Or.inl h2⟩)
    · rcases le_total x.2.2 y.2.2 with h3 | h3
      · exact Or.inl (Or.inr ⟨h1, Or.inr ⟨h2, h3⟩⟩)
      · exact Or.inr (Or.inr ⟨h1.symm, Or.inr ⟨h2.symm, h3⟩⟩)
    · exact Or.inr (Or.inr ⟨h1.symm, Or.inl h2⟩)
  · exact Or.inr (Or.inl h1)

theorem tle_trans {α β γ : Type} [LinearOrder α] [LinearOrder β] [LinearOrder γ]
    (x y z : α × β × γ) (hxy : TLe x y) (hyz : TLe y z) : TLe x z := by
  rcases hxy with h1 | ⟨e1, h1⟩
  · rcases hyz with h2 | ⟨e2, _⟩
    · exact Or.inl (h1.trans h2)
    · exact Or.inl (e2 ▸ h1)
  · rcases hyz with h2 | ⟨e2, h2⟩
    · exact Or.inl (e1 ▸ h2)
    · refine Or.inr ⟨e1.trans e2, ?_⟩
      rcases h1 with h1 | ⟨f1, h1⟩
      · rcases h2 with h2 | ⟨f2, _⟩
        · exact Or.inl (h1.trans h2)
        · exact Or.inl (f2 ▸ h1)
      · rcases h2 with h2 | ⟨f2, h2⟩
        · exact Or.inl (f1 ▸ h2)
        · exact Or.inr ⟨f1.trans f2, h1.trans h2⟩

/-- C4, counterexample: the claim says a missing base period never raises
and the derivation degrades gracefully; but on a national fact table with
no Enero 2005 row, `generate_metrics` raises `IndexError` at
`wide.query("year == 2005 & month == 'Enero'")['export'].iloc[0]`. -/
theorem C4_counterexample_missing_base_raises :
    Metrics.generate_metrics c4Facts = Except.error PyErr.indexError := rfl

/-- C5, counterexample: the claim says a sheet with no locatable header
row is skipped with a warning in every workbook; but the national parser
of `etl.py` raises `StopIteration` (fatal, there is no handler) on a year
sheet with no `Enero` header cell. -/
theorem C5_counterexample_national_header_fatal :
    Etl.parse_book c5Book "import" = Except.error PyErr.stopIteration := rfl

/-- C6, counterexample: the claim says the parser emits exactly one
synthetic `Total` record per category; but the category parser only
emits a `Total` record when the row's total cell passes the cell filter —
here the category `Cobre` is parsed (one monthly record) yet no `Total`
record exists for it at all (and `ProdRec` carries no side-channel sum
field in the first place). -/
theorem C6_counterexample_products_total_missing :
    (EtlProducts.parse_book c6Book "export").1 =
      [⟨2005, "Enero", "export", "Cobre", 5⟩] ∧
    ((EtlProducts.parse_book c6Book "export").1.filter
      (fun r => r.month == "Total")).length = 0 :=
  ⟨rfl, rfl⟩

/-- C7, counterexample: the claim says zero cells are skipped so that no
emitted monthly fact carries `usd = 0`; but the national parser of
`etl.py` converts every month cell of the grand-total row with `float`,
with no emptiness or zero check, and here emits a monthly `Enero` record
with `usd = 0`. -/
theorem C7_counterexample_national_emits_zero :
    Etl.parse_book c7Book "import" =
      Except.ok [⟨2005, "Enero", "import", PF.val 0, none⟩,
                 ⟨2005, "Total", "import", PF.val 0, some 0⟩] := by
  have h : Etl.parse_book c7Book "import" =
      Except.ok [⟨2005, "Enero", "import", PF.val 0, none⟩,
                 ⟨2005, "Total", "import", PF.val 0, some (0 + 0)⟩] := rfl
  rw [h]
  norm_num

/-- C10, counterexample: the claim says every record of the category
parser has `usd ≠ 0`; but a text cell `"0"` is not caught by the
`val == 0` check (Python string-to-int comparison is `False`), converts
via `float("0")`, and is emitted with `usd = 0`. -/
theorem C10_counterexample_text_zero_emitted :
    (EtlProducts.parse_book c10Book "import").1 =
      [⟨2005, "Enero", "import", "Cobre", 0⟩] := rfl

/-- Componentwise unfolding of `==` on pairs (the instance is defined
exactly this way), letting concrete key comparisons evaluate. -/
theorem prod_beq_expand {α β : Type} [BEq α] [BEq β] (a b : α × β) :
    (a == b) = (a.1 == b.1 && a.2 == b.2) := rfl

/-- C1: the claim (and the warning message printed by `qa_totals` itself,
and the repository test `test_monthly_vs_total_consistency`) puts the
clean/discrepant boundary at $1,000; but the filter in `qa_totals` is
`joined["Δ"].abs() > 1e-3`, so a $500 delta — clean per the claim — is
flagged as a discrepancy. -/
theorem C1_qa_totals_flags_delta_500 :
    (EtlProducts.qaBad c1Facts).map (fun f => f.delta) = [PF.val 500] := by
  have hm : EtlProducts.qaMonthly c1Facts =
      [((2005, "import", "Minerales"), 1000)] := by
    norm_num [EtlProducts.qaMonthly, EtlProducts.keyOf, c1Facts,
      List.insertionSort, List.orderedInsert, List.dedup_cons_of_not_mem,
      List.filter, List.sum_cons, List.sum_nil, beq_iff_eq, bne]
  have ha : EtlProducts.qaAnnual c1Facts =
      [((2005, "import", "Minerales"), 1500)] := by
    norm_num [EtlProducts.qaAnnual, EtlProducts.keyOf, c1Facts,
      List.insertionSort, List.orderedInsert, List.dedup_cons_of_not_mem,
      List.filter, List.sum_cons, List.sum_nil, beq_iff_eq, bne]
  have hj : EtlProducts.qaJoined c1Facts =
      [⟨2005, "import", "Minerales", 1000, some 1500, PF.val 500⟩] := by
    norm_num [EtlProducts.qaJoined, hm, ha]
  norm_num [EtlProducts.qaBad, hj, PF.absGt]

/-- C8, counterexample: the claim says findings are ranked by absolute
delta descending; but `bad.nlargest(5, "Δ")` ranks by the signed delta,
so the $10 overshoot is listed before the -$5,000 shortfall although its
absolute delta is far smaller. -/
theorem C8_counterexample_signed_ranking :
    (EtlProducts.qaWorst c8Facts).map (fun f => f.delta) =
      [PF.val 10, PF.val (-5000)] ∧ ¬(|(-5000 : ℚ)| ≤ |(10 : ℚ)|) := by
  constructor
  · have hm : EtlProducts.qaMonthly c8Facts =
        [((2005, "import", "Cobre"), 100), ((2006, "import", "Cobre"), 6000)] := by
      norm_num [EtlProducts.qaMonthly, EtlProducts.keyOf, c8Facts,
        List.insertionSort, List.orderedInsert, List.dedup_cons_of_not_mem,
        List.filter, List.sum_cons, List.sum_nil, beq_iff_eq, bne, TLe]
      simp only [prod_beq_expand, Int.reduceBEq, List.map_cons, List.map_nil,
        List.sum_cons, List.sum_nil]
      norm_num
    have ha : EtlProducts.qaAnnual c8Facts =
        [((2005, "import", "Cobre"), 110), ((2006, "import", "Cobre"), 1000)] := by
      norm_num [EtlProducts.qaAnnual, EtlProducts.keyOf, c8Facts,
        List.insertionSort, List.orderedInsert, List.dedup_cons_of_not_mem,
        List.filter, List.sum_cons, List.sum_nil, beq_iff_eq, bne, TLe]
      simp only [prod_beq_expand, Int.reduceBEq, List.map_cons, List.map_nil,
        List.sum_cons, List.sum_nil]
      norm_num
    have hj : EtlProducts.qaJoined c8Facts =
        [⟨2005, "import", "Cobre", 100, some 110, PF.val 10⟩,
         ⟨2006, "import", "Cobre", 6000, some 1000, PF.val (-5000)⟩] := by
      norm_num [EtlProducts.qaJoined, hm, ha, prod_beq_expand]
    have hb : EtlProducts.qaBad c8Facts =
        [⟨2005, "import", "Cobre", 100, some 110, PF.val 10⟩,
         ⟨2006, "import", "Cobre", 6000, some 1000, PF.val (-5000)⟩] := by
      norm_num [EtlProducts.qaBad, hj, PF.absGt]
    norm_num [EtlProducts.qaWorst, hb, List.insertionSort, List.orderedInsert, PF.leB]
  · norm_num

/-- C3, counterexample: the claim says a flow with no fact for a period
pivots to null; but when a flow has no records anywhere in the category
table, `generate_product_metrics` creates the column as the scalar `0`
(`wide['export'] = 0`), so an import-only table yields an export value of
`0`, not null. -/
theorem C3_counterexample_missing_flow_zero :
    (MetricsProducts.pivot c3Facts).map (fun w => w.exp) = [PF.val 0] ∧
    PF.val 0 ≠ PF.nan :=
  ⟨rfl, by simp⟩

/-- C2, counterexample: the claim says `mom_pct` is null whenever its
denominator is zero; but the code computes `(exp / exp_lag1 - 1) * 100`
with float semantics, so a zero denominator under a nonzero numerator
yields `+inf`, which is not null. -/
theorem C2_counterexample_zero_denominator_inf :
    (MetricsProducts.generate_product_metrics c2Facts).map (fun r => r.exp_mom) =
      [PF.nan, PF.pinf] := by
  have hp : MetricsProducts.pivot c2Facts =
      [⟨2005, "Enero", 1, "Cobre", PF.val 0, PF.val 0⟩,
       ⟨2005, "Febrero", 2, "Cobre", PF.val 5, PF.val 0⟩] := by
    have h0 : MetricsProducts.pivot c2Facts =
        [⟨2005, "Enero", 1, "Cobre", PF.val (0 + 0), PF.val 0⟩,
         ⟨2005, "Febrero", 2, "Cobre", PF.val (5 + 0), PF.val 0⟩] := rfl
    rw [h0]
    norm_num
  have hw : MetricsProducts.sortedWide c2Facts =
      [⟨2005, "Enero", 1, "Cobre", PF.val 0, PF.val 0⟩,
       ⟨2005, "Febrero", 2, "Cobre", PF.val 5, PF.val 0⟩] := by
    unfold MetricsProducts.sortedWide
    rw [hp]
    simp [List.insertionSort, List.orderedInsert, MetricsProducts.sortKey]
    norm_num [TLe]
  have hc : MetricsProducts.cats c2Facts = ["Cobre"] := by
    simp [MetricsProducts.cats, hw, List.dedup_cons_of_not_mem]
  norm_num [MetricsProducts.generate_product_metrics, hw, hc,
    MetricsProducts.seriesKpis, MetricsProducts.mkSeriesKpi, List.filter,
    List.range, List.range.loop, pctChange, lagged, PF.div, PF.sub, PF.mul,
    PF.roundTo]

/-- Every record a single data row contributes carries that row's
category name and the converted value of one of its mapped cells. -/
theorem mem_rowRecords {y : ℤ} {fl : String} {rows : List Row}
    {cmap : List (ℕ × String)} {rr : ℕ} {r : ProdRec}
    (h : r ∈ EtlProducts.rowRecords y fl rows cmap rr) :
    r.category = EtlProducts.catName rows rr ∧ r.year = y ∧ r.flow = fl ∧
    ∃ p ∈ cmap, EtlProducts.monthCellValue? (cellAt rows rr p.1) = some r.usd ∧
      r.month = p.2 := by
  rw [EtlProducts.rowRecords, List.mem_filterMap] at h
  obtain ⟨p, hp, hf⟩ := h
  rw [Option.map_eq_some'] at hf
  obtain ⟨q, hq, hr⟩ := hf
  subst hr
  exact ⟨rfl, rfl, rfl, p, hp, by simpa using hq, rfl⟩

/-- Every record of a parsed sheet comes from a row that passed the data
row filter and a cell that passed the cell filter. -/
theorem mem_parse_sheet {fl : String} {y : ℤ} {rows : List Row} {r : ProdRec}
    (h : r ∈ (EtlProducts.parse_sheet fl y rows).1) :
    ∃ rr, EtlProducts.isDataRow rows rr = true ∧
      r.category = EtlProducts.catName rows rr ∧ r.year = y ∧ r.flow = fl ∧
      ∃ c, EtlProducts.monthCellValue? (cellAt rows rr c) = some r.usd := by
  rcases hh : findHeaderIdx rows with _ | hIdx
  · simp only [EtlProducts.parse_sheet, hh] at h
    simp at h
  · simp only [EtlProducts.parse_sheet, hh] at h
    by_cases hc : (EtlProducts.col_map rows hIdx).isEmpty = true
    · rw [if_pos hc] at h
      simp at h
    · rw [if_neg hc] at h
      simp only [List.mem_flatten, List.mem_map, List.mem_filter] at h
      obtain ⟨l, ⟨rr, ⟨_, hdata⟩, hl⟩, hr⟩ := h
      subst hl
      obtain ⟨hcat, hy, hfl, p, hp, hcell, _⟩ := mem_rowRecords hr
      exact ⟨rr, hdata, hcat, hy, hfl, p.1, hcell⟩

/-- Every record of the category parser comes from some sheet of the
book, a qualifying data row and a cell accepted by the cell filter. -/
theorem mem_parse_book {book : Book} {fl : String} {r : ProdRec}
    (h : r ∈ (EtlProducts.parse_book book fl).1) :
    ∃ sh ∈ book, ∃ rr, EtlProducts.isDataRow sh.rows rr = true ∧
      r.category = EtlProducts.catName sh.rows rr ∧ r.flow = fl ∧
      ∃ c, EtlProducts.monthCellValue? (cellAt sh.rows rr c) = some r.usd := by
  induction book with
  | nil => simp [EtlProducts.parse_book] at h
  | cons sh rest ih =>
    rw [EtlProducts.parse_book] at h
    by_cases hy : isYearName sh.name
    · simp only [hy, if_true, List.mem_append] at h
      rcases h with h | h
      · obtain ⟨rr, hdata, hcat, _, hfl, c, hcell⟩ := mem_parse_sheet h
        exact ⟨sh, List.mem_cons_self _ _, rr, hdata, hcat, hfl, c, hcell⟩
      · obtain ⟨sh', hsh', rest'⟩ := ih h
        exact ⟨sh', List.mem_cons_of_mem _ hsh', rest'⟩
    · simp only [hy, if_false] at h
      obtain ⟨sh', hsh', rest'⟩ := ih h
      exact ⟨sh', List.mem_cons_of_mem _ hsh', rest'⟩

/-- Unfolding of a successful cell conversion: the cell passed all three
skip conditions and `float` succeeded. -/
theorem monthCellValue?_eq_some {cell : Cell} {q : ℚ}
    (h : EtlProducts.monthCellValue? cell = some q) :
    pdIsNa cell = false ∧ cellEqEmptyStr cell = false ∧
    cellEqZero cell = false ∧ pyFloatCell cell = some q := by
  rw [EtlProducts.monthCellValue?] at h
  by_cases hc : (pdIsNa cell || cellEqEmptyStr cell || cellEqZero cell) = true
  · rw [if_pos hc] at h
    exact absurd h (by simp)
  · rw [if_neg hc] at h
    simp only [Bool.or_eq_true, not_or, Bool.not_eq_true] at hc
    exact ⟨hc.1.1, hc.1.2, hc.2, h⟩

/-- C7 (amended): every record the category parser emits takes its `usd`
from a cell of the originating sheet that is non-missing, not the empty
string, not the numeric value zero, and convertible by `float`; and the
cell filter itself skips missing cells, the empty string, the numeric
zero, and non-numeric strings.  (As stated originally the claim fails on
the national parser, which converts the grand-total row's month cells
unconditionally — see the counterexample — so no `usd = 0` guarantee
holds there.) -/
theorem C7_cell_filter :
    (∀ (book : Book) (fl : String) (r : ProdRec),
      r ∈ (EtlProducts.parse_book book fl).1 →
      ∃ sh ∈ book, ∃ i c,
        pdIsNa (cellAt sh.rows i c) = false ∧
        cellEqEmptyStr (cellAt sh.rows i c) = false ∧
        cellEqZero (cellAt sh.rows i c) = false ∧
        pyFloatCell (cellAt sh.rows i c) = some r.usd) ∧
    EtlProducts.monthCellValue? Cell.blank = none ∧
    EtlProducts.monthCellValue? (Cell.str "") = none ∧
    (∀ q : ℚ, q = 0 → EtlProducts.monthCellValue? (Cell.num q) = none) ∧
    (∀ s : String, pyFloatStr s = none →
      EtlProducts.monthCellValue? (Cell.str s) = none) := by
  refine ⟨?_, rfl, rfl, ?_, ?_⟩
  · intro book fl r h
    obtain ⟨sh, hsh, rr, _, _, _, c, hcell⟩ := mem_parse_book h
    obtain ⟨h1, h2, h3, h4⟩ := monthCellValue?_eq_some hcell
    exact ⟨sh, hsh, rr, c, h1, h2, h3, h4⟩
  · intro q hq
    subst hq
    simp [EtlProducts.monthCellValue?, cellEqZero]
  · intro s hs
    rw [EtlProducts.monthCellValue?]
    by_cases he : s = ""
    · subst he
      rfl
    · rw [if_neg (by simp [pdIsNa, cellEqEmptyStr, cellEqZero, he])]
      simpa [pyFloatCell] using hs

/-- C7, witness: the filter facts evaluated at the concrete sheet
`c6Book` and at the numeric zero cell. -/
theorem C7_cell_filter_witness :
    (∃ sh ∈ c6Book, ∃ i c,
        pdIsNa (cellAt sh.rows i c) = false ∧
        cellEqEmptyStr (cellAt sh.rows i c) = false ∧
        cellEqZero (cellAt sh.rows i c) = false ∧
        pyFloatCell (cellAt sh.rows i c) =
          some (⟨2005, "Enero", "export", "Cobre", 5⟩ : ProdRec).usd) ∧
    EtlProducts.monthCellValue? (Cell.num 0) = none :=
  ⟨C7_cell_filter.1 c6Book "export" ⟨2005, "Enero", "export", "Cobre", 5⟩
      (by decide),
   C7_cell_filter.2.2.2.1 0 rfl⟩

/-- C10 (amended): every record of the category parser carries a category
name of length at least three whose lowercased form starts with neither
`incluye` nor `total` (its `usd` field always holds an actual number, but
it can be `0` when a text cell parses to zero — see the counterexample). -/
theorem C10_category_invariants (book : Book) (fl : String) (r : ProdRec)
    (h : r ∈ (EtlProducts.parse_book book fl).1) :
    3 ≤ r.category.data.length ∧
    pyStartsWith (pyLower r.category) "incluye" = false ∧
    pyStartsWith (pyLower r.category) "total" = false := by
  obtain ⟨sh, _, rr, hdata, hcat, _, _⟩ := mem_parse_book h
  rw [EtlProducts.isDataRow] at hdata
  simp only [Bool.not_eq_true', Bool.or_eq_false_iff,
    decide_eq_false_iff_not, Nat.not_lt] at hdata
  rw [hcat]
  exact ⟨hdata.2, hdata.1.1.2, hdata.1.2⟩

/-- C10, witness: the invariants evaluated on a concrete parsed record. -/
theorem C10_category_invariants_witness :
    3 ≤ (⟨2005, "Enero", "export", "Cobre", 5⟩ : ProdRec).category.data.length ∧
    pyStartsWith (pyLower (⟨2005, "Enero", "export", "Cobre", 5⟩ : ProdRec).category)
      "incluye" = false ∧
    pyStartsWith (pyLower (⟨2005, "Enero", "export", "Cobre", 5⟩ : ProdRec).category)
      "total" = false :=
  C10_category_invariants c6Book "export" _ (by decide)

/-- C5 (amended): the category parser skips a year sheet with no
locatable header row: the records of the book are exactly those of the
book without that sheet, and the per-sheet warning is emitted; parsing
always continues over the remaining sheets.  (The national parser
instead raises `StopIteration` on such a sheet — see the
counterexample.) -/
theorem C5_products_skip_headerless (b₁ b₂ : List Sheet) (s : Sheet)
    (fl : String) (hy : isYearName s.name = true)
    (hh : findHeaderIdx s.rows = none) :
    (EtlProducts.parse_book (b₁ ++ s :: b₂) fl).1 =
      (EtlProducts.parse_book (b₁ ++ b₂) fl).1 ∧
    ("no se encontro encabezado Enero en " ++ toString (yearOfName s.name)) ∈
      (EtlProducts.parse_book (b₁ ++ s :: b₂) fl).2 := by
  induction b₁ with
  | nil =>
    simp only [List.nil_append, EtlProducts.parse_book, hy, if_true]
    simp only [EtlProducts.parse_sheet, hh]
    simp
  | cons sh rest ih =>
    by_cases hys : isYearName sh.name = true
    · simp only [List.cons_append, EtlProducts.parse_book, hys, if_true,
        List.append_eq]
      exact ⟨by rw [ih.1], List.mem_append_right _ ih.2⟩
    · simp only [List.cons_append, EtlProducts.parse_book, hys, if_false,
        List.append_eq]
      exact ih

/-- C5, witness: the skip behavior evaluated on the concrete headerless
sheet of `c5Book` standing alone. -/
theorem C5_products_skip_headerless_witness :
    isYearName ("2007" : String) = true ∧
    findHeaderIdx [[Cell.str "sin encabezado"]] = none ∧
    ((EtlProducts.parse_book ([] ++ (⟨"2007", [[Cell.str "sin encabezado"]]⟩ : Sheet) :: []) "import").1 =
      (EtlProducts.parse_book ([] ++ []) "import").1 ∧
    ("no se encontro encabezado Enero en " ++
        toString (yearOfName ("2007" : String))) ∈
      (EtlProducts.parse_book ([] ++ (⟨"2007", [[Cell.str "sin encabezado"]]⟩ : Sheet) :: []) "import").2) :=
  ⟨rfl, rfl,
    C5_products_skip_headerless [] [] ⟨"2007", [[Cell.str "sin encabezado"]]⟩
      "import" rfl rfl⟩

/-- A label listed in `MONTHS` is never `"Total"`. -/
theorem months_ne_total {m : String} (hm : m ∈ MONTHS) :
    (m == "Total") = false := by
  fin_cases hm <;> decide

/-- Every record produced by the national month loop is a month record:
no side-channel field, and a month name from the header (in particular
not `"Total"`). -/
theorem monthRecords_props {fl : String} {y : ℤ} {rows : List Row}
    {hdrIdx totIdx : ℕ} :
    ∀ {cols : List ℕ} {ms : List NatRec},
      (∀ c ∈ cols,
        MONTHS.contains (pyStrip (pyStrCell (cellAt rows hdrIdx c))) = true) →
      Etl.monthRecords fl y rows hdrIdx totIdx cols = Except.ok ms →
      ∀ r ∈ ms, r.sum_months = none ∧ (r.month == "Total") = false := by
  intro cols
  induction cols with
  | nil =>
    intro ms _ h r hr
    rw [Etl.monthRecords] at h
    cases h
    simp at hr
  | cons c cs ih =>
    intro ms hcols h r hr
    rw [Etl.monthRecords] at h
    rcases hcell : Etl.stripHeaderCell (cellAt rows hdrIdx c) with _ | m
    · rw [hcell] at h
      cases h
    · rw [hcell] at h
      rcases hval : Etl.floatCell (cellAt rows totIdx c) with _ | v
      · rw [hval] at h
        cases h
      · rw [hval] at h
        rcases hrest : Etl.monthRecords fl y rows hdrIdx totIdx cs with _ | rs
        · rw [hrest] at h
          cases h
        · rw [hrest] at h
          cases h
          rcases List.mem_cons.mp hr with hr | hr
          · subst hr
            refine ⟨rfl, ?_⟩
            have hc := hcols c (List.mem_cons_self _ _)
            rcases hcc : cellAt rows hdrIdx c with _ | q | s
            · rw [hcc] at hcell
              exact absurd hcell (by simp [Etl.stripHeaderCell])
            · rw [hcc] at hcell
              exact absurd hcell (by simp [Etl.stripHeaderCell])
            · rw [hcc] at hcell hc
              have hms : m = pyStrip s := by
                simpa [Etl.stripHeaderCell] using hcell.symm
              subst hms
              have : pyStrip s ∈ MONTHS := by
                simpa [pyStrCell] using hc
              exact months_ne_total this
          · exact ih (fun c' hc' => hcols c' (List.mem_cons_of_mem _ hc')) hrest r hr

/-- A successfully parsed national year sheet is a run of month records
followed by exactly one synthetic `Total` record that carries the
side-channel `sum_months` field. -/
theorem parse_sheet_shape {fl : String} {y : ℤ} {rows : List Row}
    {rs : List NatRec} (h : Etl.parse_sheet fl y rows = Except.ok rs) :
    ∃ ms t, rs = ms ++ [t] ∧ t.month = "Total" ∧ t.year = y ∧
      t.sum_months.isSome = true ∧
      ∀ r ∈ ms, r.sum_months = none ∧ (r.month == "Total") = false := by
  rw [Etl.parse_sheet] at h
  rcases hh : findHeaderIdx rows with _ | hdrIdx
  · rw [hh] at h
    cases h
  · rw [hh] at h
    dsimp only at h
    rcases hct : Etl.col_total? rows hdrIdx with _ | ctot
    · rw [hct] at h
      cases h
    · rw [hct] at h
      dsimp only at h
      rcases hti : Etl.totIdx? rows with _ | tIdx
      · rw [hti] at h
        cases h
      · rw [hti] at h
        dsimp only at h
        rcases hms : Etl.monthRecords fl y rows hdrIdx tIdx
            (Etl.col_meses rows hdrIdx) with _ | ms
        · rw [hms] at h
          cases h
        · rw [hms] at h
          dsimp only at h
          rcases hvt : Etl.floatCell (cellAt rows tIdx ctot) with _ | vt
          · rw [hvt] at h
            cases h
          · rw [hvt] at h
            dsimp only at h
            rcases hsm : Etl.sumCells
                ((Etl.col_meses rows hdrIdx).map (fun c => cellAt rows tIdx c))
                with _ | sm
            · rw [hsm] at h
              cases h
            · rw [hsm] at h
              cases h
              refine ⟨ms, _, rfl, rfl, rfl, rfl, ?_⟩
              have hcols : ∀ c ∈ Etl.col_meses rows hdrIdx,
                  MONTHS.contains (pyStrip (pyStrCell (cellAt rows hdrIdx c))) = true := by
                intro c hc
                rw [Etl.col_meses] at hc
                exact (List.mem_filter.mp hc).2
              exact monthRecords_props hcols hms

/-- C6 (amended): a successfully parsed national book carries exactly one
`Total` record per year sheet, and a record is a `Total` record exactly
when it has the side-channel `sum_months` field.  (The category parser
gives no such guarantee: its `Total` records have no side channel and can
be missing entirely — see the counterexample.) -/
theorem C6_national_total_side_channel (book : Book) (fl : String)
    (recs : List NatRec) (h : Etl.parse_book book fl = Except.ok recs) :
    (recs.filter (fun r => r.month == "Total")).length =
      (book.filter (fun sh => isYearName sh.name)).length ∧
    ∀ r ∈ recs, (r.month = "Total" ↔ r.sum_months.isSome = true) := by
  induction book generalizing recs with
  | nil =>
    rw [Etl.parse_book] at h
    cases h
    simp
  | cons sh rest ih =>
    rw [Etl.parse_book] at h
    by_cases hy : isYearName sh.name = true
    · rw [if_pos hy] at h
      rcases hsh : Etl.parse_sheet fl (yearOfName sh.name) sh.rows with _ | rs
      · rw [hsh] at h
        cases h
      · rw [hsh] at h
        rcases hrest : Etl.parse_book rest fl with _ | rest_recs
        · rw [hrest] at h
          cases h
        · rw [hrest] at h
          cases h
          obtain ⟨hlen, hiff⟩ := ih _ hrest
          obtain ⟨ms, t, hrs, htm, _, hts, hmonths⟩ := parse_sheet_shape hsh
          subst hrs
          constructor
          · have hmsf : ms.filter (fun r => r.month == "Total") = [] := by
              rw [List.filter_eq_nil_iff]
              intro r hr
              simp [(hmonths r hr).2]
            have h1 : List.filter (fun r => r.month == "Total") (ms ++ [t]) = [t] := by
              rw [List.filter_append, hmsf]
              simp [htm]
            have h2 : List.filter (fun s => isYearName s.name) (sh :: rest) =
                sh :: List.filter (fun s => isYearName s.name) rest := by
              simp [hy]
            rw [List.filter_append, h1, h2]
            simp [hlen]
          · intro r hr
            rcases List.mem_append.mp hr with hr | hr
            · rcases List.mem_append.mp hr with hr | hr
              · have := hmonths r hr
                constructor
                · intro hm
                  rw [hm] at this
                  simp at this
                · intro hs
                  rw [this.1] at hs
                  simp at hs
              · rcases List.mem_singleton.mp hr with rfl
                simp [htm, hts]
            · exact hiff r hr
    · rw [if_neg hy] at h
      obtain ⟨hlen, hiff⟩ := ih _ h
      refine ⟨?_, hiff⟩
      rw [List.filter_cons_of_neg (by simpa using hy)]
      exact hlen

/-- C6, witness: the national Total-record property evaluated on the
concrete `sampleBook` parse. -/
theorem C6_national_total_side_channel_witness :
    (sampleNatRecs.filter (fun r => r.month == "Total")).length =
      (sampleBook.filter (fun sh => isYearName sh.name)).length ∧
    ∀ r ∈ sampleNatRecs, (r.month = "Total" ↔ r.sum_months.isSome = true) :=
  C6_national_total_side_channel sampleBook "import" sampleNatRecs (by
    have h : Etl.parse_book sampleBook "import" =
        Except.ok [⟨2005, "Enero", "import", PF.val 5, none⟩,
                   ⟨2005, "Febrero", "import", PF.val 7, none⟩,
                   ⟨2005, "Total", "import", PF.val 12, some (5 + (7 + 0))⟩] := rfl
    rw [h, sampleNatRecs]
    norm_num)

/-- The float-column comparison is total. -/
theorem pfLeB_total (x y : PF) : PF.leB x y = true ∨ PF.leB y x = true := by
  cases x <;> cases y <;> simp [PF.leB] <;> exact le_total _ _

/-- The float-column comparison is transitive. -/
theorem pfLeB_trans (x y z : PF) (hxy : PF.leB x y = true)
    (hyz : PF.leB y z = true) : PF.leB x z = true := by
  cases x <;> cases y <;> cases z <;> simp_all [PF.leB]
  exact le_trans hxy hyz

/-- C8 (amended): the surfaced operator table (`bad.nlargest(5, "Δ")`) is
ordered by the signed delta descending (each later row's delta is at most
the earlier row's under the column comparison), all its rows are flagged
findings, and at most five are shown.  `qa_totals` itself only prints and
returns, so discrepancies never stop the pipeline.  (The claim's ranking
by absolute delta fails — see the counterexample.) -/
theorem C8_worst_ranking (facts : List ProdRec) :
    (EtlProducts.qaWorst facts).Pairwise
      (fun f g => PF.leB g.delta f.delta = true) ∧
    (∀ f ∈ EtlProducts.qaWorst facts, f ∈ EtlProducts.qaBad facts) ∧
    (EtlProducts.qaWorst facts).length ≤ 5 := by
  haveI : IsTotal Finding (fun f g => PF.leB g.delta f.delta = true) :=
    ⟨fun a b => (pfLeB_total b.delta a.delta).elim Or.inl Or.inr⟩
  haveI : IsTrans Finding (fun f g => PF.leB g.delta f.delta = true) :=
    ⟨fun a b c hab hbc => pfLeB_trans c.delta b.delta a.delta hbc hab⟩
  refine ⟨?_, ?_, ?_⟩
  · have hs := List.sorted_insertionSort
      (fun f g : Finding => PF.leB g.delta f.delta = true)
      (EtlProducts.qaBad facts)
    exact List.Pairwise.sublist (List.take_sublist 5 _) hs
  · intro f hf
    have hmem := List.take_subset 5 _ hf
    exact (List.perm_insertionSort
      (fun f g : Finding => PF.leB g.delta f.delta = true)
      (EtlProducts.qaBad facts)).mem_iff.mp hmem
  · exact List.length_take_le 5 _

/-- C8, witness: the ranking facts evaluated at the concrete `c1Facts`,
whose single flagged finding is shown in the table. -/
theorem C8_worst_ranking_witness :
    (EtlProducts.qaWorst c1Facts).Pairwise
      (fun f g => PF.leB g.delta f.delta = true) ∧
    (⟨2005, "import", "Minerales", 1000, some 1500, PF.val 500⟩ : Finding) ∈
      EtlProducts.qaBad c1Facts ∧
    (EtlProducts.qaWorst c1Facts).length ≤ 5 := by
  have hm : EtlProducts.qaMonthly c1Facts =
      [((2005, "import", "Minerales"), 1000)] := by
    norm_num [EtlProducts.qaMonthly, EtlProducts.keyOf, c1Facts,
      List.insertionSort, List.orderedInsert, List.dedup_cons_of_not_mem,
      List.filter, List.sum_cons, List.sum_nil, beq_iff_eq, bne]
  have ha : EtlProducts.qaAnnual c1Facts =
      [((2005, "import", "Minerales"), 1500)] := by
    norm_num [EtlProducts.qaAnnual, EtlProducts.keyOf, c1Facts,
      List.insertionSort, List.orderedInsert, List.dedup_cons_of_not_mem,
      List.filter, List.sum_cons, List.sum_nil, beq_iff_eq, bne]
  have hj : EtlProducts.qaJoined c1Facts =
      [⟨2005, "import", "Minerales", 1000, some 1500, PF.val 500⟩] := by
    norm_num [EtlProducts.qaJoined, hm, ha]
  have hb : EtlProducts.qaBad c1Facts =
      [⟨2005, "import", "Minerales", 1000, some 1500, PF.val 500⟩] := by
    norm_num [EtlProducts.qaBad, hj, PF.absGt]
  refine ⟨(C8_worst_ranking c1Facts).1,
    (C8_worst_ranking c1Facts).2.1 _ ?_, (C8_worst_ranking c1Facts).2.2⟩
  rw [EtlProducts.qaWorst, hb]
  simp [List.insertionSort, List.orderedInsert]

/-- Every KPI row of the category metrics is row `i` of the per-category
column computation on some block. -/
theorem mem_generate_product_metrics {facts : List ProdRec} {r : ProdKpi}
    (h : r ∈ MetricsProducts.generate_product_metrics facts) :
    ∃ ws i, i < ws.length ∧ r = MetricsProducts.mkSeriesKpi ws i := by
  rw [MetricsProducts.generate_product_metrics] at h
  simp only [List.mem_flatten, List.mem_map] at h
  obtain ⟨l, ⟨c, _, hl⟩, hr⟩ := h
  subst hl
  rw [MetricsProducts.seriesKpis] at hr
  simp only [List.mem_map, List.mem_range] at hr
  obtain ⟨i, hi, hr⟩ := hr
  exact ⟨_, i, hi, hr.symm⟩

/-- C9: `cov_ratio` on every derived KPI row is `export / import` with
infinities replaced by null and rounded to four decimals — so it is null
whenever the import is zero or null, it is never an infinity, and when
the import is a nonzero value it is the rounded quotient.  The function
is total, so the computation never raises. -/
theorem C9_cov_ratio_null_never_inf :
    (∀ (facts : List ProdRec) (r : ProdKpi),
      r ∈ MetricsProducts.generate_product_metrics facts →
      r.cov_ratio = MetricsProducts.cov_ratio r.exp r.imp) ∧
    (∀ e m : PF, MetricsProducts.cov_ratio e m ≠ PF.pinf ∧
      MetricsProducts.cov_ratio e m ≠ PF.ninf) ∧
    (∀ a : ℚ, MetricsProducts.cov_ratio (PF.val a) (PF.val 0) = PF.nan) ∧
    (∀ e : PF, MetricsProducts.cov_ratio e PF.nan = PF.nan) ∧
    (∀ a b : ℚ, b ≠ 0 →
      MetricsProducts.cov_ratio (PF.val a) (PF.val b) =
        (PF.val (a / b)).roundTo 4) := by
  refine ⟨?_, ?_, ?_, ?_, ?_⟩
  · intro facts r h
    obtain ⟨ws, i, _, hr⟩ := mem_generate_product_metrics h
    subst hr
    rfl
  · intro e m
    rw [MetricsProducts.cov_ratio]
    rcases e.div m with _ | _ | _ | q <;> simp [replaceInfNan, PF.roundTo]
  · intro a
    rw [MetricsProducts.cov_ratio, PF.div]
    simp only [if_pos rfl]
    split_ifs <;> rfl
  · intro e
    cases e <;> rfl
  · intro a b hb
    rw [MetricsProducts.cov_ratio, PF.div]
    rw [if_neg hb]
    rfl

/-- C9, witness: the coverage-ratio facts evaluated at concrete values
(zero import, nonzero import) and on a concrete derived row. -/
theorem C9_cov_ratio_null_never_inf_witness :
    MetricsProducts.cov_ratio (PF.val 3) (PF.val 0) = PF.nan ∧
    MetricsProducts.cov_ratio (PF.val 3) (PF.val 2) = (PF.val (3 / 2)).roundTo 4 ∧
    MetricsProducts.cov_ratio (PF.val 3) (PF.val 0) ≠ PF.pinf ∧
    (MetricsProducts.mkSeriesKpi
        [⟨2005, "Enero", 1, "Cobre", PF.val 0, PF.val 0⟩,
         ⟨2005, "Febrero", 2, "Cobre", PF.val 5, PF.val 0⟩] 0).cov_ratio =
      MetricsProducts.cov_ratio
        (MetricsProducts.mkSeriesKpi
          [⟨2005, "Enero", 1, "Cobre", PF.val 0, PF.val 0⟩,
           ⟨2005, "Febrero", 2, "Cobre", PF.val 5, PF.val 0⟩] 0).exp
        (MetricsProducts.mkSeriesKpi
          [⟨2005, "Enero", 1, "Cobre", PF.val 0, PF.val 0⟩,
           ⟨2005, "Febrero", 2, "Cobre", PF.val 5, PF.val 0⟩] 0).imp := by
  refine ⟨C9_cov_ratio_null_never_inf.2.2.1 3,
    C9_cov_ratio_null_never_inf.2.2.2.2 3 2 (by norm_num),
    (C9_cov_ratio_null_never_inf.2.1 (PF.val 3) (PF.val 0)).1,
    C9_cov_ratio_null_never_inf.1 c2Facts _ ?_⟩
  have hp : MetricsProducts.pivot c2Facts =
      [⟨2005, "Enero", 1, "Cobre", PF.val 0, PF.val 0⟩,
       ⟨2005, "Febrero", 2, "Cobre", PF.val 5, PF.val 0⟩] := by
    have h0 : MetricsProducts.pivot c2Facts =
        [⟨2005, "Enero", 1, "Cobre", PF.val (0 + 0), PF.val 0⟩,
         ⟨2005, "Febrero", 2, "Cobre", PF.val (5 + 0), PF.val 0⟩] := rfl
    rw [h0]
    norm_num
  have hw : MetricsProducts.sortedWide c2Facts =
      [⟨2005, "Enero", 1, "Cobre", PF.val 0, PF.val 0⟩,
       ⟨2005, "Febrero", 2, "Cobre", PF.val 5, PF.val 0⟩] := by
    unfold MetricsProducts.sortedWide
    rw [hp]
    simp [List.insertionSort, List.orderedInsert, MetricsProducts.sortKey]
    norm_num [TLe]
  have hc : MetricsProducts.cats c2Facts = ["Cobre"] := by
    simp [MetricsProducts.cats, hw, List.dedup_cons_of_not_mem]
  rw [MetricsProducts.generate_product_metrics, hw, hc]
  simp [MetricsProducts.seriesKpis, List.filter]
  exact ⟨0, by norm_num, rfl⟩

/-- C3 (amended): each pivot has one row per key — the mapped keys are
duplicate-free — and each row's flow values are the aggregate of exactly
the matching facts, which is NaN (null) when no fact matches; except that
the category pivot fills a flow that has no records anywhere in the table
with the constant `0` (see the counterexample). -/
theorem C3_pivot_unique_and_null :
    (∀ facts : List TradeFact,
      ((Metrics.pivot facts).map (fun w => (w.year, w.month))).Nodup) ∧
    (∀ (facts : List TradeFact) (w : NatWide), w ∈ Metrics.pivot facts →
      w.exp = Metrics.firstAgg (Metrics.sortedFacts facts) w.year w.month "export" ∧
      w.imp = Metrics.firstAgg (Metrics.sortedFacts facts) w.year w.month "import") ∧
    (∀ (fs : List TradeFact) (y : ℤ) (m fl : String),
      fs.filter (fun f => f.year == y && f.month == m && f.flow == fl) = [] →
      Metrics.firstAgg fs y m fl = PF.nan) ∧
    (∀ facts : List ProdRec,
      ((MetricsProducts.pivot facts).map
        (fun w => (w.year, w.month, w.category))).Nodup) ∧
    (∀ (facts : List ProdRec) (w : ProdWide),
      w ∈ MetricsProducts.pivot facts →
      ((facts.filter (fun f => f.month != "Total" && (monthNum? f.month).isSome)).any
          (fun f => f.flow == "export") = true →
        w.exp = MetricsProducts.sumAgg
          (facts.filter (fun f => f.month != "Total" && (monthNum? f.month).isSome))
          w.year w.month w.category "export") ∧
      ((facts.filter (fun f => f.month != "Total" && (monthNum? f.month).isSome)).any
          (fun f => f.flow == "export") = false →
        w.exp = PF.val 0)) ∧
    (∀ (fs : List ProdRec) (y : ℤ) (m c fl : String),
      fs.filter (fun f =>
        f.year == y && f.month == m && f.category == c && f.flow == fl) = [] →
      MetricsProducts.sumAgg fs y m c fl = PF.nan) := by
  refine ⟨?_, ?_, ?_, ?_, ?_, ?_⟩
  · intro facts
    rw [Metrics.pivot, List.map_map]
    have : ((fun w : NatWide => (w.year, w.month)) ∘ fun k : ℤ × String =>
        ({ year := k.1, month := k.2,
           exp := Metrics.firstAgg (Metrics.sortedFacts facts) k.1 k.2 "export",
           imp := Metrics.firstAgg (Metrics.sortedFacts facts) k.1 k.2 "import" } : NatWide)) =
        id := by
      funext k
      rfl
    rw [this, List.map_id]
    exact List.nodup_dedup _
  · intro facts w h
    rw [Metrics.pivot] at h
    simp only [List.mem_map] at h
    obtain ⟨k, _, hw⟩ := h
    subst hw
    exact ⟨rfl, rfl⟩
  · intro fs y m fl h
    rw [Metrics.firstAgg, h]
    rfl
  · intro facts
    rw [MetricsProducts.pivot, List.map_map]
    have : ((fun w : ProdWide => (w.year, w.month, w.category)) ∘
        fun k : ℤ × String × String =>
        ({ year := k.1, month := k.2.1, month_num := (monthNum? k.2.1).getD 0,
           category := k.2.2,
           exp := if (facts.filter (fun f => f.month != "Total" &&
                (monthNum? f.month).isSome)).any (fun f => f.flow == "export") then
              MetricsProducts.sumAgg (facts.filter (fun f => f.month != "Total" &&
                (monthNum? f.month).isSome)) k.1 k.2.1 k.2.2 "export"
            else PF.val 0,
           imp := if (facts.filter (fun f => f.month != "Total" &&
                (monthNum? f.month).isSome)).any (fun f => f.flow == "import") then
              MetricsProducts.sumAgg (facts.filter (fun f => f.month != "Total" &&
                (monthNum? f.month).isSome)) k.1 k.2.1 k.2.2 "import"
            else PF.val 0 } : ProdWide)) = id := by
      funext k
      rfl
    rw [this, List.map_id]
    exact List.nodup_dedup _
  · intro facts w h
    rw [MetricsProducts.pivot] at h
    simp only [List.mem_map] at h
    obtain ⟨k, _, hw⟩ := h
    subst hw
    constructor
    · intro hexp
      simp only [hexp, if_true]
    · intro hexp
      simp only [hexp, Bool.false_eq_true, if_false]
  · intro fs y m c fl h
    rw [MetricsProducts.sumAgg, h]
    rfl

/-- C3, witness: uniqueness and null/zero behavior at concrete inputs —
the empty aggregate is null, and the import-only table's export column is
zero-filled. -/
theorem C3_pivot_unique_and_null_witness :
    Metrics.firstAgg [] 2005 "Enero" "export" = PF.nan ∧
    ((MetricsProducts.pivot c3Facts).map
      (fun w => (w.year, w.month, w.category))).Nodup ∧
    (⟨2005, "Enero", 1, "Cobre", PF.val 0, PF.val (7 + 0)⟩ : ProdWide).exp =
      PF.val 0 :=
  ⟨C3_pivot_unique_and_null.2.2.1 [] 2005 "Enero" "export" rfl,
   C3_pivot_unique_and_null.2.2.2.1 c3Facts,
   (C3_pivot_unique_and_null.2.2.2.2.1 c3Facts
      ⟨2005, "Enero", 1, "Cobre", PF.val 0, PF.val (7 + 0)⟩
      (by rw [show MetricsProducts.pivot c3Facts =
          [⟨2005, "Enero", 1, "Cobre", PF.val 0, PF.val (7 + 0)⟩] from rfl]
          exact List.mem_singleton_self _)).2 rfl⟩

/-- Reading `getD` over a mapped list with a mapped default. -/
theorem map_getD {α β : Type} (f : α → β) (l : List α) (d : α) (i : ℕ) :
    (l.map f).getD i (f d) = f (l.getD i d) := by
  induction l generalizing i with
  | nil => cases i <;> rfl
  | cons a t ih => cases i with
    | zero => rfl
    | succ j => exact ih j

/-- The base denominator of a category series is always positive — in
particular never zero, so `calculate_base_index` never divides by zero. -/
theorem baseDen_pos (vs : List PF) : 0 < MetricsProducts.baseDen vs := by
  cases vs with
  | nil => norm_num [MetricsProducts.baseDen]
  | cons v t =>
    cases v <;> simp only [MetricsProducts.baseDen, List.head?_cons] <;>
      try norm_num
    split_ifs with h
    · exact h
    · norm_num

/-- When the first entry of the series is a value strictly greater than
zero, it is the base denominator. -/
theorem baseDen_of_pos_head {vs : List PF} {q : ℚ}
    (hh : vs.head? = some (PF.val q)) (hq : 0 < q) :
    MetricsProducts.baseDen vs = q := by
  cases vs with
  | nil => cases hh
  | cons v t =>
    rw [List.head?_cons, Option.some.injEq] at hh
    subst hh
    simp only [MetricsProducts.baseDen, List.head?_cons, if_pos hq]

/-- Every cell of the category pivot is an actual value or NaN — never an
infinity (the aggregates are sums of rationals, or the zero fill). -/
theorem pivot_val_or_nan {facts : List ProdRec} :
    ∀ w ∈ MetricsProducts.pivot facts,
      ((∃ q, w.exp = PF.val q) ∨ w.exp = PF.nan) ∧
      ((∃ q, w.imp = PF.val q) ∨ w.imp = PF.nan) := by
  have hs : ∀ (fs : List ProdRec) (y : ℤ) (m c fl : String),
      (∃ q, MetricsProducts.sumAgg fs y m c fl = PF.val q) ∨
        MetricsProducts.sumAgg fs y m c fl = PF.nan := by
    intro fs y m c fl
    simp only [MetricsProducts.sumAgg]
    split_ifs
    · exact Or.inr rfl
    · exact Or.inl ⟨_, rfl⟩
  intro w h
  rw [MetricsProducts.pivot] at h
  simp only [List.mem_map] at h
  obtain ⟨k, _, hw⟩ := h
  subst hw
  constructor <;> simp only <;> split_ifs
  · exact hs _ _ _ _ _
  · exact Or.inl ⟨0, rfl⟩
  · exact hs _ _ _ _ _
  · exact Or.inl ⟨0, rfl⟩

/-- The value-or-NaN invariant carries to the sorted frame. -/
theorem sortedWide_val_or_nan {facts : List ProdRec} :
    ∀ w ∈ MetricsProducts.sortedWide facts,
      ((∃ q, w.exp = PF.val q) ∨ w.exp = PF.nan) ∧
      ((∃ q, w.imp = PF.val q) ∨ w.imp = PF.nan) := by
  intro w h
  have := (List.perm_insertionSort
    (fun a b => TLe (MetricsProducts.sortKey a) (MetricsProducts.sortKey b))
    (MetricsProducts.pivot facts)).mem_iff.mp h
  exact pivot_val_or_nan w this

/-- The base index of a series of values-or-NaNs is never infinite: the
denominator is positive and the numerators are finite or null. -/
theorem calculate_base_index_not_inf (vs : List PF)
    (hvs : ∀ v ∈ vs, (∃ q, v = PF.val q) ∨ v = PF.nan) (i : ℕ) :
    MetricsProducts.calculate_base_index vs i ≠ PF.pinf ∧
    MetricsProducts.calculate_base_index vs i ≠ PF.ninf := by
  have hd : MetricsProducts.baseDen vs ≠ 0 := ne_of_gt (baseDen_pos vs)
  have hx : (∃ q, vs.getD i PF.nan = PF.val q) ∨ vs.getD i PF.nan = PF.nan := by
    by_cases hi : i < vs.length
    · rw [List.getD_eq_getElem _ _ hi]
      exact hvs _ (List.getElem_mem hi)
    · right
      exact List.getD_eq_default _ _ (le_of_not_lt hi)
  rcases hx with ⟨q, hq⟩ | hq <;>
    rw [MetricsProducts.calculate_base_index, hq] <;>
    simp [PF.div, hd, PF.mul, PF.roundTo]

/-- Every derived KPI row is row `i` of the block of its category: the
sorted wide frame filtered to one category value. -/
theorem mem_gpm_block {facts : List ProdRec} {r : ProdKpi}
    (h : r ∈ MetricsProducts.generate_product_metrics facts) :
    ∃ c i, i < ((MetricsProducts.sortedWide facts).filter
        (fun w => w.category == c)).length ∧
      r = MetricsProducts.mkSeriesKpi
        ((MetricsProducts.sortedWide facts).filter (fun w => w.category == c)) i := by
  rw [MetricsProducts.generate_product_metrics] at h
  simp only [List.mem_flatten, List.mem_map] at h
  obtain ⟨l, ⟨c, _, hl⟩, hr⟩ := h
  subst hl
  rw [MetricsProducts.seriesKpis] at hr
  simp only [List.mem_map, List.mem_range] at hr
  obtain ⟨i, hi, hr⟩ := hr
  exact ⟨c, i, hi, hr.symm⟩

/-- On `c2Facts` the category metrics reduce to the single `Cobre`
block. -/
theorem c2_metrics_blocks :
    MetricsProducts.generate_product_metrics c2Facts =
      MetricsProducts.seriesKpis c2Wide := by
  have hp : MetricsProducts.pivot c2Facts = c2Wide := by
    have h0 : MetricsProducts.pivot c2Facts =
        [⟨2005, "Enero", 1, "Cobre", PF.val (0 + 0), PF.val 0⟩,
         ⟨2005, "Febrero", 2, "Cobre", PF.val (5 + 0), PF.val 0⟩] := rfl
    rw [h0, c2Wide]
    norm_num
  have hw : MetricsProducts.sortedWide c2Facts = c2Wide := by
    unfold MetricsProducts.sortedWide
    rw [hp, c2Wide]
    simp [List.insertionSort, List.orderedInsert, MetricsProducts.sortKey]
    norm_num [TLe]
  have hc : MetricsProducts.cats c2Facts = ["Cobre"] := by
    simp [MetricsProducts.cats, hw, c2Wide, List.dedup_cons_of_not_mem]
  rw [MetricsProducts.generate_product_metrics, hw, hc]
  simp [c2Wide, List.filter]

/-- The first KPI row of the `Cobre` block is in the output. -/
theorem c2_mem0 :
    MetricsProducts.mkSeriesKpi c2Wide 0 ∈
      MetricsProducts.generate_product_metrics c2Facts := by
  rw [c2_metrics_blocks, MetricsProducts.seriesKpis]
  simp only [List.mem_map, List.mem_range]
  exact ⟨0, by norm_num [c2Wide], rfl⟩

/-- C4 (amended): the category base index always divides by a positive
denominator — the series' first value when it is positive, else the
neutral `1` — and the resulting index columns are never infinite; no
error is possible since the whole derivation is total.  (The national
variant instead raises `IndexError` when its fixed Enero 2005 base row is
missing — see the counterexample.) -/
theorem C4_base_index_fallback :
    (∀ (vs : List PF) (q : ℚ), vs.head? = some (PF.val q) → 0 < q →
      MetricsProducts.baseDen vs = q) ∧
    (∀ vs : List PF, 0 < MetricsProducts.baseDen vs) ∧
    (∀ (facts : List ProdRec) (r : ProdKpi),
      r ∈ MetricsProducts.generate_product_metrics facts →
      r.idx_exp ≠ PF.pinf ∧ r.idx_exp ≠ PF.ninf ∧
      r.idx_imp ≠ PF.pinf ∧ r.idx_imp ≠ PF.ninf) := by
  refine ⟨fun vs q hh hq => baseDen_of_pos_head hh hq, baseDen_pos, ?_⟩
  intro facts r h
  obtain ⟨c, i, _, hr⟩ := mem_gpm_block h
  subst hr
  have hes : ∀ v ∈ ((MetricsProducts.sortedWide facts).filter
      (fun w => w.category == c)).map (fun w => w.exp),
      (∃ q, v = PF.val q) ∨ v = PF.nan := by
    intro v hv
    obtain ⟨w, hw, rfl⟩ := List.mem_map.mp hv
    exact (sortedWide_val_or_nan w (List.mem_of_mem_filter hw)).1
  have his : ∀ v ∈ ((MetricsProducts.sortedWide facts).filter
      (fun w => w.category == c)).map (fun w => w.imp),
      (∃ q, v = PF.val q) ∨ v = PF.nan := by
    intro v hv
    obtain ⟨w, hw, rfl⟩ := List.mem_map.mp hv
    exact (sortedWide_val_or_nan w (List.mem_of_mem_filter hw)).2
  have he := calculate_base_index_not_inf _ hes i
  have hi := calculate_base_index_not_inf _ his i
  exact ⟨he.1, he.2, hi.1, hi.2⟩

/-- C4, witness: the fallback facts evaluated at concrete series, and the
no-infinity fact on a concrete derived row. -/
theorem C4_base_index_fallback_witness :
    MetricsProducts.baseDen [PF.val 5, PF.nan] = 5 ∧
    0 < MetricsProducts.baseDen ([] : List PF) ∧
    ((MetricsProducts.mkSeriesKpi c2Wide 0).idx_exp ≠ PF.pinf ∧
     (MetricsProducts.mkSeriesKpi c2Wide 0).idx_exp ≠ PF.ninf ∧
     (MetricsProducts.mkSeriesKpi c2Wide 0).idx_imp ≠ PF.pinf ∧
     (MetricsProducts.mkSeriesKpi c2Wide 0).idx_imp ≠ PF.ninf) :=
  ⟨C4_base_index_fallback.1 [PF.val 5, PF.nan] 5 rfl (by norm_num),
   C4_base_index_fallback.2.1 [],
   C4_base_index_fallback.2.2 c2Facts _ c2_mem0⟩

/-- Reading a position of a tabulated list. -/
theorem range_map_getD {β : Type} (f : ℕ → β) (n i : ℕ) (d : β) (hi : i < n) :
    ((List.range n).map f).getD i d = f i := by
  rw [List.getD_eq_getElem _ _ (by simpa using hi)]
  simp

/-- Row `i` of a block's KPI rows. -/
theorem seriesKpis_getD {ws : List ProdWide} {i : ℕ} (hi : i < ws.length)
    (d : ProdKpi) :
    (MetricsProducts.seriesKpis ws).getD i d = MetricsProducts.mkSeriesKpi ws i := by
  rw [MetricsProducts.seriesKpis]
  exact range_map_getD _ _ _ _ hi

/-- The KPI rows of a block all carry the block's category. -/
theorem seriesKpis_category {c : String} {ws : List ProdWide}
    (hws : ∀ w ∈ ws, w.category = c) :
    ∀ r ∈ MetricsProducts.seriesKpis ws, r.category = c := by
  intro r hr
  rw [MetricsProducts.seriesKpis] at hr
  simp only [List.mem_map, List.mem_range] at hr
  obtain ⟨i, hi, rfl⟩ := hr
  show (ws.getD i ⟨0, "", 0, "", PF.nan, PF.nan⟩).category = c
  rw [List.getD_eq_getElem _ _ hi]
  exact hws _ (List.getElem_mem hi)

/-- Filtering a concatenation of per-category blocks by one category
keeps exactly that category's block. -/
theorem filter_flatten_blocks (L : List String) (hL : L.Nodup)
    (g : String → List ProdKpi) (hg : ∀ c, ∀ r ∈ g c, r.category = c)
    (cat : String) :
    (List.flatten (L.map g)).filter (fun r => r.category == cat) =
      if cat ∈ L then g cat else [] := by
  induction L with
  | nil => simp
  | cons c rest ih =>
    obtain ⟨hc0, hrest⟩ := List.nodup_cons.mp hL
    rw [List.map_cons, List.flatten_cons, List.filter_append, ih hrest]
    by_cases hc : c = cat
    · subst hc
      have h1 : (g c).filter (fun r => r.category == c) = g c :=
        List.filter_eq_self.mpr (fun r hr => by simp [hg c r hr])
      rw [h1, if_neg hc0, if_pos (List.mem_cons_self _ _), List.append_nil]
    · have h1 : (g c).filter (fun r => r.category == cat) = [] :=
        List.filter_eq_nil_iff.mpr (fun r hr => by simp [hg c r hr, hc])
      rw [h1, List.nil_append]
      by_cases hmem : cat ∈ rest
      · rw [if_pos hmem, if_pos (List.mem_cons_of_mem _ hmem)]
      · rw [if_neg hmem, if_neg (by
          intro hx
          rcases List.mem_cons.mp hx with hx | hx
          · exact hc hx.symm
          · exact hmem hx)]

/-- The one-category slice of the derived table is exactly the KPI rows
of that category's block of the sorted frame. -/
theorem gpm_filter_block (facts : List ProdRec) (cat : String) :
    kpiSeries facts cat =
      MetricsProducts.seriesKpis
        ((MetricsProducts.sortedWide facts).filter
          (fun w => w.category == cat)) := by
  rw [kpiSeries, MetricsProducts.generate_product_metrics]
  have hg : ∀ c, ∀ r ∈ MetricsProducts.seriesKpis
      ((MetricsProducts.sortedWide facts).filter (fun w => w.category == c)),
      r.category = c := by
    intro c
    exact seriesKpis_category (fun w hw => by
      simpa using (List.mem_filter.mp hw).2)
  rw [filter_flatten_blocks (MetricsProducts.cats facts)
    (List.nodup_dedup _) _ hg cat]
  by_cases hmem : cat ∈ MetricsProducts.cats facts
  · rw [if_pos hmem]
  · rw [if_neg hmem]
    have hnil : (MetricsProducts.sortedWide facts).filter
        (fun w => w.category == cat) = [] := by
      rw [List.filter_eq_nil_iff]
      intro w hw hbeq
      refine hmem ?_
      rw [MetricsProducts.cats, List.mem_dedup]
      exact List.mem_map.mpr ⟨w, hw, by simpa using hbeq⟩
    rw [hnil]
    rfl

/-- A null denominator nullifies the growth formula. -/
theorem pctChange_nan_denom (x : PF) : pctChange x PF.nan = PF.nan := by
  cases x <;> rfl

/-- The growth formula on finite values with a nonzero denominator. -/
theorem pctChange_val {a b : ℚ} (hb : b ≠ 0) :
    pctChange (PF.val a) (PF.val b) =
      (PF.val ((a / b - 1) * 100)).roundTo 2 := by
  simp only [pctChange, PF.div, if_neg hb]
  rfl

/-- The sorted category frame is ordered by its sort key. -/
theorem sortedWide_pairwise (facts : List ProdRec) :
    (MetricsProducts.sortedWide facts).Pairwise
      (fun a b => TLe (MetricsProducts.sortKey a) (MetricsProducts.sortKey b)) := by
  haveI : IsTotal ProdWide
      (fun a b => TLe (MetricsProducts.sortKey a) (MetricsProducts.sortKey b)) :=
    ⟨fun a b => tle_total _ _⟩
  haveI : IsTrans ProdWide
      (fun a b => TLe (MetricsProducts.sortKey a) (MetricsProducts.sortKey b)) :=
    ⟨fun a b c => tle_trans _ _ _⟩
  exact List.sorted_insertionSort _ _

/-- Within one category, the block's KPI rows are chronologically
ordered: by year, then by month number. -/
theorem seriesKpis_chron (cat : String) {ws : List ProdWide}
    (hws : ws.Pairwise
      (fun a b => TLe (MetricsProducts.sortKey a) (MetricsProducts.sortKey b)))
    (hcat : ∀ w ∈ ws, w.category = cat) :
    (MetricsProducts.seriesKpis ws).Pairwise (fun a b =>
      a.year < b.year ∨ (a.year = b.year ∧ a.month_num ≤ b.month_num)) := by
  rw [MetricsProducts.seriesKpis]
  rw [List.pairwise_iff_getElem] at hws ⊢
  intro i j hi hj hij
  simp only [List.length_map, List.length_range] at hi hj
  simp only [List.getElem_map, List.getElem_range]
  have hwij := hws i j hi hj hij
  show (MetricsProducts.mkSeriesKpi ws i).year < _ ∨ _
  have hyi : (MetricsProducts.mkSeriesKpi ws i).year = ws[i].year := by
    show (ws.getD i _).year = _
    rw [List.getD_eq_getElem _ _ hi]
  have hyj : (MetricsProducts.mkSeriesKpi ws j).year = ws[j].year := by
    show (ws.getD j _).year = _
    rw [List.getD_eq_getElem _ _ hj]
  have hmi : (MetricsProducts.mkSeriesKpi ws i).month_num = ws[i].month_num := by
    show (ws.getD i _).month_num = _
    rw [List.getD_eq_getElem _ _ hi]
  have hmj : (MetricsProducts.mkSeriesKpi ws j).month_num = ws[j].month_num := by
    show (ws.getD j _).month_num = _
    rw [List.getD_eq_getElem _ _ hj]
  rw [hyi, hyj, hmi, hmj]
  rcases hwij with hlt | ⟨_, hinner⟩
  · exfalso
    rw [MetricsProducts.sortKey, MetricsProducts.sortKey] at hlt
    simp only at hlt
    rw [hcat _ (List.getElem_mem hi), hcat _ (List.getElem_mem hj)] at hlt
    exact lt_irrefl _ hlt
  · exact hinner

/-- Pandas `shift(k)` has no value before position `k`. -/
theorem lagged_lt {vs : List PF} {k i : ℕ} (h : i < k) :
    lagged vs k i = PF.nan := if_pos h

/-- Pandas `shift(k)` at or after position `k` reads `k` positions back. -/
theorem lagged_ge {vs : List PF} {k i : ℕ} (h : k ≤ i) :
    lagged vs k i = vs.getD (i - k) PF.nan := if_neg (not_lt.mpr h)

/-- C2 (amended): within every category series of the derived KPI table,
`mom`/`yoy` at position `i` are the growth formula against the value one
and twelve positions earlier; they are null when that prior position does
not exist (in particular `yoy` on the first twelve rows) or its value is
null; a zero denominator instead passes through the float division (see
the counterexample, where it yields `+inf`); and the rows of a series are
chronologically ordered.  The national deriver computes the same formula
over its single series. -/
theorem C2_growth_columns (facts : List ProdRec) (cat : String) :
    (∀ i, i < (kpiSeries facts cat).length → i < 12 →
      ((kpiSeries facts cat).getD i dProdKpi).exp_yoy = PF.nan ∧
      ((kpiSeries facts cat).getD i dProdKpi).imp_yoy = PF.nan) ∧
    (∀ i, 12 ≤ i → i < (kpiSeries facts cat).length →
      ((kpiSeries facts cat).getD i dProdKpi).exp_yoy =
        pctChange ((kpiSeries facts cat).getD i dProdKpi).exp
          ((kpiSeries facts cat).getD (i - 12) dProdKpi).exp ∧
      ((kpiSeries facts cat).getD i dProdKpi).imp_yoy =
        pctChange ((kpiSeries facts cat).getD i dProdKpi).imp
          ((kpiSeries facts cat).getD (i - 12) dProdKpi).imp) ∧
    (∀ i, i < (kpiSeries facts cat).length → i < 1 →
      ((kpiSeries facts cat).getD i dProdKpi).exp_mom = PF.nan ∧
      ((kpiSeries facts cat).getD i dProdKpi).imp_mom = PF.nan) ∧
    (∀ i, 1 ≤ i → i < (kpiSeries facts cat).length →
      ((kpiSeries facts cat).getD i dProdKpi).exp_mom =
        pctChange ((kpiSeries facts cat).getD i dProdKpi).exp
          ((kpiSeries facts cat).getD (i - 1) dProdKpi).exp ∧
      ((kpiSeries facts cat).getD i dProdKpi).imp_mom =
        pctChange ((kpiSeries facts cat).getD i dProdKpi).imp
          ((kpiSeries facts cat).getD (i - 1) dProdKpi).imp) ∧
    (∀ x, pctChange x PF.nan = PF.nan) ∧
    (∀ a b : ℚ, b ≠ 0 → pctChange (PF.val a) (PF.val b) =
      (PF.val ((a / b - 1) * 100)).roundTo 2) ∧
    (kpiSeries facts cat).Pairwise (fun a b =>
      a.year < b.year ∨ (a.year = b.year ∧ a.month_num ≤ b.month_num)) ∧
    (∀ (nfacts : List TradeFact) (rows : List NatKpi),
      Metrics.generate_metrics nfacts = Except.ok rows →
      (∀ i, i < rows.length → i < 12 →
        (rows.getD i dNatKpi).exp_yoy = PF.nan) ∧
      (∀ i, 12 ≤ i → i < rows.length →
        (rows.getD i dNatKpi).exp_yoy =
          pctChange (rows.getD i dNatKpi).exp
            ((rows.getD (i - 12) dNatKpi)).exp)) := by
  have hS := gpm_filter_block facts cat
  set ws := (MetricsProducts.sortedWide facts).filter
    (fun w => w.category == cat) with hwsdef
  have hlen : (kpiSeries facts cat).length = ws.length := by
    rw [hS]
    simp [MetricsProducts.seriesKpis]
  refine ⟨?_, ?_, ?_, ?_, pctChange_nan_denom, fun a b hb => pctChange_val hb,
    ?_, ?_⟩
  · intro i hil hi12
    have hi : i < ws.length := hlen ▸ hil
    rw [hS, seriesKpis_getD hi]
    constructor
    · show pctChange _ (lagged (ws.map (fun w => w.exp)) 12 i) = PF.nan
      rw [lagged_lt hi12]
      exact pctChange_nan_denom _
    · show pctChange _ (lagged (ws.map (fun w => w.imp)) 12 i) = PF.nan
      rw [lagged_lt hi12]
      exact pctChange_nan_denom _
  · intro i h12 hil
    have hi : i < ws.length := hlen ▸ hil
    have hi' : i - 12 < ws.length := lt_of_le_of_lt (Nat.sub_le _ _) hi
    rw [hS, seriesKpis_getD hi, seriesKpis_getD hi']
    constructor
    · show pctChange _ (lagged (ws.map (fun w => w.exp)) 12 i) = _
      rw [lagged_ge h12]
      rfl
    · show pctChange _ (lagged (ws.map (fun w => w.imp)) 12 i) = _
      rw [lagged_ge h12]
      rfl
  · intro i hil hi1
    have hi : i < ws.length := hlen ▸ hil
    rw [hS, seriesKpis_getD hi]
    constructor
    · show pctChange _ (lagged (ws.map (fun w => w.exp)) 1 i) = PF.nan
      rw [lagged_lt hi1]
      exact pctChange_nan_denom _
    · show pctChange _ (lagged (ws.map (fun w => w.imp)) 1 i) = PF.nan
      rw [lagged_lt hi1]
      exact pctChange_nan_denom _
  · intro i h1 hil
    have hi : i < ws.length := hlen ▸ hil
    have hi' : i - 1 < ws.length := lt_of_le_of_lt (Nat.sub_le _ _) hi
    rw [hS, seriesKpis_getD hi, seriesKpis_getD hi']
    constructor
    · show pctChange _ (lagged (ws.map (fun w => w.exp)) 1 i) = _
      rw [lagged_ge h1]
      rfl
    · show pctChange _ (lagged (ws.map (fun w => w.imp)) 1 i) = _
      rw [lagged_ge h1]
      rfl
  · rw [hS]
    refine seriesKpis_chron cat (List.Pairwise.filter _ (sortedWide_pairwise facts))
      (fun w hw => ?_)
    simpa using (List.mem_filter.mp hw).2
  · intro nfacts rows h
    rw [Metrics.generate_metrics] at h
    rcases hf : (Metrics.sortedWide nfacts).find?
        (fun w => w.year == 2005 && w.month == "Enero") with _ | b
    · rw [hf] at h
      cases h
    · rw [hf] at h
      dsimp only at h
      cases h
      constructor
      · intro i hil hi12
        simp only [List.length_map, List.length_range] at hil
        rw [range_map_getD _ _ _ _ hil]
        show pctChange _ (lagged ((Metrics.sortedWide nfacts).map
          (fun w => w.exp)) 12 i) = PF.nan
        rw [lagged_lt hi12]
        exact pctChange_nan_denom _
      · intro i h12 hil
        simp only [List.length_map, List.length_range] at hil
        have hi' : i - 12 < (Metrics.sortedWide nfacts).length :=
          lt_of_le_of_lt (Nat.sub_le _ _) hil
        rw [range_map_getD _ _ _ _ hil, range_map_getD _ _ _ _ hi']
        show pctChange _ (lagged ((Metrics.sortedWide nfacts).map
          (fun w => w.exp)) 12 i) = _
        rw [lagged_ge h12]
        rfl

/-- C2, witness: the growth-column facts evaluated on the concrete
`Cobre` series of `c2Facts` and at concrete values. -/
theorem C2_growth_columns_witness :
    0 < (kpiSeries c2Facts "Cobre").length ∧
    ((kpiSeries c2Facts "Cobre").getD 0 dProdKpi).exp_yoy = PF.nan ∧
    pctChange (PF.val 3) (PF.val 2) =
      (PF.val ((3 / 2 - 1) * 100)).roundTo 2 := by
  have hk : kpiSeries c2Facts "Cobre" = MetricsProducts.seriesKpis c2Wide := by
    rw [kpiSeries, c2_metrics_blocks]
    rfl
  have hlen : 0 < (kpiSeries c2Facts "Cobre").length := by
    rw [hk]
    norm_num [MetricsProducts.seriesKpis, c2Wide]
  exact ⟨hlen,
    ((C2_growth_columns c2Facts "Cobre").1 0 hlen (by norm_num)).1,
    (C2_growth_columns c2Facts "Cobre").2.2.2.2.2.1 3 2 (by norm_num)⟩
